import Mathlib

/-!
Verification development for the OAuth consent-caching subsystem of the
notion-mcp-server-remote repository (files `src/utils/workers-oauth-utils.ts`,
`src/utils/upstream-utils.ts`, `src/auth-handler.ts`).

The TypeScript sources are shallowly embedded below.  Conventions:
* JavaScript strings are modelled as Lean `String` (sequences of Unicode
  scalar values); byte arrays as `List Nat` with entries `< 256`.
* A function that can throw is modelled in `Except String`, the error value
  being the name or message of the thrown exception; a caught exception is
  resolved inside the embedding exactly where the source catches it.
* The Web-platform primitives used by the source (`crypto.subtle` HMAC-SHA256,
  `atob`/`btoa`, `JSON.parse`/`JSON.stringify`, `TextEncoder`, `parseInt`)
  are given executable models following their platform specifications
  (FIPS 180-4 / RFC 2104, the HTML forgiving-base64 algorithm, ECMA-404 /
  ECMA-262).
-/

/-! ### JavaScript string helpers -/

/-- The WhiteSpace and LineTerminator characters recognised by JavaScript
`String.prototype.trim`. -/
def jsIsWhitespace (c : Char) : Bool :=
  c.toNat = 0x9 || c.toNat = 0xA || c.toNat = 0xB || c.toNat = 0xC ||
  c.toNat = 0xD || c.toNat = 0x20 || c.toNat = 0xA0 || c.toNat = 0x1680 ||
  (0x2000 ≤ c.toNat && c.toNat ≤ 0x200A) || c.toNat = 0x2028 ||
  c.toNat = 0x2029 || c.toNat = 0x202F || c.toNat = 0x205F ||
  c.toNat = 0x3000 || c.toNat = 0xFEFF

/-- `String.prototype.trim`. -/
def jsTrim (s : String) : String :=
  String.mk (((s.data.dropWhile jsIsWhitespace).reverse.dropWhile
    jsIsWhitespace).reverse)

/-- `String.prototype.split` with a one-character separator (the only form
used by the source: `split(";")` and `split(".")`). -/
def jsSplitChar (sep : Char) (s : String) : List String :=
  (go s.data []).map String.mk
where
  go : List Char → List Char → List (List Char)
  | [], acc => [acc.reverse]
  | c :: rest, acc =>
      if c = sep then acc.reverse :: go rest [] else go rest (c :: acc)

/-- `String.prototype.startsWith`. -/
def jsStartsWith (pre s : String) : Bool :=
  s.data.take pre.data.length = pre.data

/-- `String.prototype.substring(n)` (drop the first `n` UTF-16 units; the
source only applies it after an ASCII `startsWith` check, where UTF-16 units
and scalar values coincide). -/
def jsSubstringFrom (n : Nat) (s : String) : String :=
  String.mk (s.data.drop n)

/-- Whether a string is an infix (contiguous substring) of another. -/
def strContains (s pat : String) : Bool :=
  decide (pat.data <:+: s.data)

/-! ### UTF-8 encoding (`TextEncoder().encode`) -/

/-- UTF-8 encoding of one Unicode scalar value. -/
def utf8EncodeScalar (n : Nat) : List Nat :=
  if n < 0x80 then [n]
  else if n < 0x800 then [0xC0 + n / 64, 0x80 + n % 64]
  else if n < 0x10000 then
    [0xE0 + n / 4096, 0x80 + n / 64 % 64, 0x80 + n % 64]
  else
    [0xF0 + n / 262144, 0x80 + n / 4096 % 64, 0x80 + n / 64 % 64,
     0x80 + n % 64]

/-- Model of `new TextEncoder().encode(s)`. -/
def textEncode (s : String) : List Nat :=
  s.data.flatMap (fun c => utf8EncodeScalar c.toNat)

/-! ### SHA-256 (FIPS 180-4) and HMAC (RFC 2104)

Model of the `crypto.subtle` HMAC-SHA256 primitive used by the source's
`signData` / `verifySignature`. -/

def w32 (n : Nat) : Nat := n % 4294967296

def add32 (a b : Nat) : Nat := w32 (a + b)

/-- Combine two numbers bit by bit (least significant first) over a fixed
bit width; structurally recursive so that it reduces inside the kernel. -/
def bitCombine (f : Nat → Nat → Nat) : Nat → Nat → Nat → Nat
  | 0, _, _ => 0
  | k + 1, a, b => f (a % 2) (b % 2) + 2 * bitCombine f k (a / 2) (b / 2)

def and32 (a b : Nat) : Nat := bitCombine (fun x y => x * y) 32 a b

def xor32 (a b : Nat) : Nat := bitCombine (fun x y => (x + y) % 2) 32 a b

/-- Right rotation of a 32-bit word, in arithmetic form. -/
def rotr32 (k x : Nat) : Nat := x / 2 ^ k + x % 2 ^ k * 2 ^ (32 - k)

def shr32 (k x : Nat) : Nat := x / 2 ^ k

def xor3 (a b c : Nat) : Nat := xor32 (xor32 a b) c

def sha256K : List Nat :=
  [0x428a2f98, 0x71374491, 0xb5c0fbcf, 0xe9b5dba5, 0x3956c25b, 0x59f111f1,
   0x923f82a4, 0xab1c5ed5] ++
  [0xd807aa98, 0x12835b01, 0x243185be, 0x550c7dc3, 0x72be5d74, 0x80deb1fe,
   0x9bdc06a7, 0xc19bf174] ++
  [0xe49b69c1, 0xefbe4786, 0x0fc19dc6, 0x240ca1cc, 0x2de92c6f, 0x4a7484aa,
   0x5cb0a9dc, 0x76f988da] ++
  [0x983e5152, 0xa831c66d, 0xb00327c8, 0xbf597fc7, 0xc6e00bf3, 0xd5a79147,
   0x06ca6351, 0x14292967] ++
  [0x27b70a85, 0x2e1b2138, 0x4d2c6dfc, 0x53380d13, 0x650a7354, 0x766a0abb,
   0x81c2c92e, 0x92722c85] ++
  [0xa2bfe8a1, 0xa81a664b, 0xc24b8b70, 0xc76c51a3, 0xd192e819, 0xd6990624,
   0xf40e3585, 0x106aa070] ++
  [0x19a4c116, 0x1e376c08, 0x2748774c, 0x34b0bcb5, 0x391c0cb3, 0x4ed8aa4a,
   0x5b9cca4f, 0x682e6ff3] ++
  [0x748f82ee, 0x78a5636f, 0x84c87814, 0x8cc70208, 0x90befffa, 0xa4506ceb,
   0xbef9a3f7, 0xc67178f2]

def sha256Init : List Nat :=
  [0x6a09e667, 0xbb67ae85, 0x3c6ef372, 0xa54ff53a, 0x510e527f, 0x9b05688c,
   0x1f83d9ab, 0x5be0cd19]

/-- SHA-256 message padding: append 0x80, zero bytes, and the 64-bit
big-endian bit length. -/
def sha256Pad (msg : List Nat) : List Nat :=
  let len := msg.length
  let bitLen := len * 8
  let zeroCount := (55 + 64 - len % 64) % 64
  msg ++ [0x80] ++ List.replicate zeroCount 0 ++
    [bitLen / 72057594037927936 % 256, bitLen / 281474976710656 % 256,
     bitLen / 1099511627776 % 256, bitLen / 4294967296 % 256,
     bitLen / 16777216 % 256, bitLen / 65536 % 256,
     bitLen / 256 % 256, bitLen % 256]

/-- Split a byte list into 64-byte blocks of 16 big-endian 32-bit words
(fuel-indexed structural recursion; the wrapper supplies ample fuel). -/
def sha256BlocksGo : Nat → List Nat → List (List Nat)
  | 0, _ => []
  | _, [] => []
  | fuel + 1, b :: rest =>
      let bytes := b :: rest
      let block := bytes.take 64
      let words := (List.range 16).map (fun i =>
        block.getD (4 * i) 0 * 16777216 + block.getD (4 * i + 1) 0 * 65536 +
        block.getD (4 * i + 2) 0 * 256 + block.getD (4 * i + 3) 0)
      words :: sha256BlocksGo fuel (bytes.drop 64)

def sha256Blocks (bytes : List Nat) : List (List Nat) :=
  sha256BlocksGo bytes.length bytes

def smallSigma0 (x : Nat) : Nat := xor3 (rotr32 7 x) (rotr32 18 x) (shr32 3 x)
def smallSigma1 (x : Nat) : Nat := xor3 (rotr32 17 x) (rotr32 19 x) (shr32 10 x)
def bigSigma0 (x : Nat) : Nat := xor3 (rotr32 2 x) (rotr32 13 x) (rotr32 22 x)
def bigSigma1 (x : Nat) : Nat := xor3 (rotr32 6 x) (rotr32 11 x) (rotr32 25 x)

/-- Extend 16 message words to the 64-word schedule. -/
def sha256Schedule (ws : List Nat) : List Nat :=
  go ws 48
where
  go (acc : List Nat) : Nat → List Nat
  | 0 => acc
  | k + 1 =>
      let i := acc.length
      let wNew := add32 (add32 (smallSigma1 (acc.getD (i - 2) 0))
        (acc.getD (i - 7) 0))
        (add32 (smallSigma0 (acc.getD (i - 15) 0)) (acc.getD (i - 16) 0))
      go (acc ++ [wNew]) k

/-- One round of the SHA-256 compression loop. -/
def sha256Round (st : List Nat) (kw : Nat × Nat) : List Nat :=
  let a := st.getD 0 0
  let b := st.getD 1 0
  let c := st.getD 2 0
  let d := st.getD 3 0
  let e := st.getD 4 0
  let f := st.getD 5 0
  let g := st.getD 6 0
  let h := st.getD 7 0
  let ch := xor32 (and32 e f) (and32 (4294967295 - e) g)
  let maj := xor3 (and32 a b) (and32 a c) (and32 b c)
  let t1 := add32 (add32 (add32 h (bigSigma1 e)) (add32 ch kw.1)) kw.2
  let t2 := add32 (bigSigma0 a) maj
  [add32 t1 t2, a, b, c, add32 d t1, e, f, g]

/-- SHA-256 compression of one block into the current state. -/
def sha256Compress (st : List Nat) (block : List Nat) : List Nat :=
  let ws := sha256Schedule block
  let fin := (sha256K.zip ws).foldl sha256Round st
  (List.range 8).map (fun i => add32 (st.getD i 0) (fin.getD i 0))

/-- SHA-256 of a byte list, producing the 32 digest bytes. -/
def sha256 (msg : List Nat) : List Nat :=
  let st := (sha256Blocks (sha256Pad msg)).foldl sha256Compress sha256Init
  st.flatMap (fun x =>
    [x / 16777216 % 256, x / 65536 % 256, x / 256 % 256, x % 256])

/-- HMAC-SHA256 (RFC 2104): the model of `crypto.subtle.sign("HMAC", ...)`
for a key imported with hash SHA-256. -/
def hmacSha256 (key msg : List Nat) : List Nat :=
  let k0 := if key.length > 64 then sha256 key else key
  let kPad := k0 ++ List.replicate (64 - k0.length) 0
  let ipad := kPad.map (fun b => bitCombine (fun x y => (x + y) % 2) 8 b 0x36)
  let opad := kPad.map (fun b => bitCombine (fun x y => (x + y) % 2) 8 b 0x5c)
  sha256 (opad ++ sha256 (ipad ++ msg))

/-! ### Base64 (`btoa` / `atob`, HTML forgiving-base64) -/

def base64Alphabet : List Char :=
  "ABCDEFGHIJKLMNOPQRSTUVWXYZabcdefghijklmnopqrstuvwxyz0123456789+/".data

def b64CharOfSextet (n : Nat) : Char := base64Alphabet.getD n "A".head

def b64SextetOfChar (c : Char) : Option Nat :=
  base64Alphabet.findIdx? (fun d => d = c)

def btoaBytes : List Nat → List Char
  | [] => []
  | [a] => [b64CharOfSextet (a / 4), b64CharOfSextet (a % 4 * 16),
      Char.ofNat 61, Char.ofNat 61]
  | [a, b] => [b64CharOfSextet (a / 4), b64CharOfSextet (a % 4 * 16 + b / 16),
      b64CharOfSextet (b % 16 * 4), Char.ofNat 61]
  | a :: b :: c :: rest =>
      b64CharOfSextet (a / 4) :: b64CharOfSextet (a % 4 * 16 + b / 16) ::
      b64CharOfSextet (b % 16 * 4 + c / 64) :: b64CharOfSextet (c % 64) ::
      btoaBytes rest

/-- Model of `btoa`: fails (throws `InvalidCharacterError`) when the input
has a code point above U+00FF. -/
def btoa (s : String) : Option String :=
  if s.data.all (fun c => c.toNat < 256) then
    some (String.mk (btoaBytes (s.data.map Char.toNat)))
  else none

def isAsciiWhitespace (c : Char) : Bool :=
  c.toNat = 0x9 || c.toNat = 0xA || c.toNat = 0xC || c.toNat = 0xD ||
  c.toNat = 0x20

/-- Remove up to two trailing `=` padding characters. -/
def stripBase64Padding (cs : List Char) : List Char :=
  let r := cs.reverse
  match r with
  | c1 :: c2 :: rest =>
      if c1 = Char.ofNat 61 then
        if c2 = Char.ofNat 61 then rest.reverse else (c2 :: rest).reverse
      else cs
  | [c1] => if c1 = Char.ofNat 61 then [] else cs
  | [] => cs

def decodeSextets : List Nat → List Nat
  | [] => []
  | [_] => []
  | [a, b] => [a * 4 + b / 16]
  | [a, b, c] => [a * 4 + b / 16, b % 16 * 16 + c / 4]
  | a :: b :: c :: d :: rest =>
      (a * 4 + b / 16) :: (b % 16 * 16 + c / 4) :: (c % 4 * 64 + d) ::
      decodeSextets rest

/-- Map each character to its base64 sextet, failing on any character
outside the alphabet. -/
def sextetsOf : List Char → Option (List Nat)
  | [] => some []
  | c :: rest =>
      match b64SextetOfChar c, sextetsOf rest with
      | some v, some vs => some (v :: vs)
      | _, _ => none

/-- Model of `atob` (the HTML forgiving-base64 decode): strips ASCII
whitespace, strips padding when the length is a multiple of four, rejects
a remainder of one and any character outside the alphabet. -/
def atob (s : String) : Option String :=
  let data := s.data.filter (fun c => !isAsciiWhitespace c)
  let data := if data.length % 4 = 0 then stripBase64Padding data else data
  if data.length % 4 = 1 then none
  else
    (sextetsOf data).map (fun sx =>
      String.mk ((decodeSextets sx).map Char.ofNat))

/-! ### Hex signatures: `signData`, `parseInt`, `match(/.{1,2}/g)` -/

def hexDigitChar (n : Nat) : Char :=
  if n < 10 then Char.ofNat (48 + n) else Char.ofNat (87 + n)

/-- `b.toString(16).padStart(2, "0")` for a byte value. -/
def byteToHex2 (b : Nat) : List Char := [hexDigitChar (b / 16), hexDigitChar (b % 16)]

def bytesToHex (bs : List Nat) : String :=
  String.mk (bs.flatMap byteToHex2)

/-- Model of `importKey` (`src/utils/workers-oauth-utils.ts`): throws when the
secret is empty (falsy), otherwise the HMAC key is the UTF-8 bytes of the
secret. -/
def importKey (secret : String) : Except String (List Nat) :=
  if secret = "" then
    .error "Cookie encryption key is not defined. A secret key is required for signing cookies."
  else .ok (textEncode secret)

/-- Model of `signData`: hex of the HMAC-SHA256 of the UTF-8 data bytes. -/
def signData (key : List Nat) (data : String) : String :=
  bytesToHex (hmacSha256 key (textEncode data))

def isLineTerminator (c : Char) : Bool :=
  c.toNat = 10 || c.toNat = 13 || c.toNat = 0x2028 || c.toNat = 0x2029

/-- The successive matches of the JavaScript global regex `/.{1,2}/g`:
greedy chunks of up to two non-line-terminator characters. -/
def dotChunks : List Char → List (List Char)
  | [] => []
  | [c] => if isLineTerminator c then [] else [[c]]
  | c :: c2 :: rest =>
      if isLineTerminator c then dotChunks (c2 :: rest)
      else if isLineTerminator c2 then [c] :: dotChunks rest
      else [c, c2] :: dotChunks rest

/-- `s.match(/.{1,2}/g)`: `none` models the `null` result (no match). -/
def jsMatchChunks (s : String) : Option (List String) :=
  let chunks := dotChunks s.data
  if chunks.isEmpty then none else some (chunks.map String.mk)

def isHexDigitChar (c : Char) : Bool :=
  (48 ≤ c.toNat && c.toNat ≤ 57) || (97 ≤ c.toNat && c.toNat ≤ 102) ||
  (65 ≤ c.toNat && c.toNat ≤ 70)

def hexDigitVal (c : Char) : Nat :=
  if c.toNat ≤ 57 then c.toNat - 48
  else if c.toNat ≤ 70 then c.toNat - 55
  else c.toNat - 87

def hexValue (ds : List Char) : Nat :=
  ds.foldl (fun acc c => acc * 16 + hexDigitVal c) 0

/-- Model of `parseInt(s, 16)`: skip whitespace, optional sign, optional
`0x`/`0X`, then the longest prefix of hex digits; `none` models `NaN`. -/
def parseIntHex (s : String) : Option Int :=
  let cs := s.data.dropWhile jsIsWhitespace
  let signAndRest : Int × List Char :=
    match cs with
    | c :: rest =>
        if c = Char.ofNat 45 then (-1, rest)
        else if c = Char.ofNat 43 then (1, rest) else (1, c :: rest)
    | [] => (1, [])
  let body : List Char :=
    match signAndRest.2 with
    | c0 :: cx :: rest =>
        if c0 = Char.ofNat 48 && (cx = Char.ofNat 120 || cx = Char.ofNat 88)
        then rest else c0 :: cx :: rest
    | l => l
  let digits := body.takeWhile isHexDigitChar
  if digits.isEmpty then none
  else some (signAndRest.1 * Int.ofNat (hexValue digits))

/-- `ToUint8` as applied by the `Uint8Array` constructor: `NaN` becomes `0`,
an integer is taken modulo 256. -/
def jsToUint8 (x : Option Int) : Nat :=
  match x with
  | none => 0
  | some i => (Int.emod i 256).toNat

/-- Model of `verifySignature`: the thrown `TypeError` when `match` returns
`null` is caught by the source's own try/catch (yielding `false`); WebCrypto
`verify` compares the supplied signature bytes with the recomputed HMAC. -/
def verifySignature (key : List Nat) (signatureHex : String) (data : String) :
    Bool :=
  match jsMatchChunks signatureHex with
  | none => false
  | some chunks =>
      let signatureBytes := chunks.map (fun c => jsToUint8 (parseIntHex c))
      signatureBytes = hmacSha256 key (textEncode data)

/-! ### JSON (`JSON.parse` / `JSON.stringify`, ECMA-404)

JavaScript values produced by `JSON.parse` (`undefined` never occurs among
them and is modelled separately as `Option.none` where the source can meet
it).  Number literals keep their source text: no claim below depends on
numeric normalisation.  A `\uXXXX` escape denoting a surrogate half is
decoded to U+FFFD, since Lean strings hold Unicode scalar values; no claim
below depends on surrogate contents. -/

inductive JsValue where
  | null : JsValue
  | bool : Bool → JsValue
  | num : String → JsValue
  | str : String → JsValue
  | arr : List JsValue → JsValue
  | obj : List (String × JsValue) → JsValue
deriving Repr, BEq

def isDigitChar (c : Char) : Bool := 48 ≤ c.toNat && c.toNat ≤ 57

def skipJsonWs (cs : List Char) : List Char :=
  cs.dropWhile (fun c =>
    c.toNat = 0x20 || c.toNat = 0x9 || c.toNat = 0xA || c.toNat = 0xD)

def jsonUnescapedChar (n : Nat) : Char :=
  if 0xD800 ≤ n && n < 0xE000 then Char.ofNat 0xFFFD else Char.ofNat n

mutual

/-- Parse the body of a JSON string (after the opening quote), returning the
decoded characters and the remainder after the closing quote. -/
def parseStringBody : List Char → Option (List Char × List Char)
  | [] => none
  | c :: rest =>
      if c.toNat = 34 then some ([], rest)
      else if c.toNat = 92 then parseStringEscape rest
      else if c.toNat < 32 then none
      else (parseStringBody rest).map (fun p => (c :: p.1, p.2))

/-- Parse one string escape (the characters after a backslash). -/
def parseStringEscape : List Char → Option (List Char × List Char)
  | [] => none
  | e :: rest2 =>
      if e.toNat = 34 || e.toNat = 92 || e.toNat = 47 then
        (parseStringBody rest2).map (fun p => (e :: p.1, p.2))
      else if e.toNat = 98 then
        (parseStringBody rest2).map (fun p => (Char.ofNat 8 :: p.1, p.2))
      else if e.toNat = 116 then
        (parseStringBody rest2).map (fun p => (Char.ofNat 9 :: p.1, p.2))
      else if e.toNat = 110 then
        (parseStringBody rest2).map (fun p => (Char.ofNat 10 :: p.1, p.2))
      else if e.toNat = 102 then
        (parseStringBody rest2).map (fun p => (Char.ofNat 12 :: p.1, p.2))
      else if e.toNat = 114 then
        (parseStringBody rest2).map (fun p => (Char.ofNat 13 :: p.1, p.2))
      else if e.toNat = 117 then parseUnicodeEscape rest2
      else none

/-- Parse the four hex digits of a `\uXXXX` escape. -/
def parseUnicodeEscape : List Char → Option (List Char × List Char)
  | h1 :: h2 :: h3 :: h4 :: rest3 =>
      if isHexDigitChar h1 && isHexDigitChar h2 &&
         isHexDigitChar h3 && isHexDigitChar h4 then
        (parseStringBody rest3).map (fun p =>
          (jsonUnescapedChar (hexValue [h1, h2, h3, h4]) :: p.1, p.2))
      else none
  | _ => none

end

/-- Scan one JSON number token (`-?int frac? exp?`), returning its characters
and the remainder. -/
def parseNumberToken (cs : List Char) : Option (List Char × List Char) :=
  let sign : List Char × List Char :=
    match cs with
    | c :: r => if c.toNat = 45 then ([c], r) else ([], cs)
    | [] => ([], [])
  match sign.2 with
  | [] => none
  | d :: r =>
      if !isDigitChar d then none
      else
        let intRest : List Char × List Char :=
          if d.toNat = 48 then ([d], r)
          else (d :: r.takeWhile isDigitChar, r.dropWhile isDigitChar)
        let fracRest : Option (List Char × List Char) :=
          match intRest.2 with
          | p :: r2 =>
              if p.toNat = 46 then
                let ds := r2.takeWhile isDigitChar
                if ds.isEmpty then none
                else some (intRest.1 ++ p :: ds, r2.dropWhile isDigitChar)
              else some intRest
          | [] => some intRest
        match fracRest with
        | none => none
        | some fr =>
            match fr.2 with
            | e :: r3 =>
                if e.toNat = 101 || e.toNat = 69 then
                  let signExp : List Char × List Char :=
                    match r3 with
                    | s :: r4 =>
                        if s.toNat = 43 || s.toNat = 45 then ([s], r4)
                        else ([], r3)
                    | [] => ([], [])
                  let ds := signExp.2.takeWhile isDigitChar
                  if ds.isEmpty then none
                  else some (fr.1 ++ e :: signExp.1 ++ ds,
                    signExp.2.dropWhile isDigitChar)
                else some fr
            | [] => some fr

mutual

/-- Parse one JSON value (fuel-indexed; the top-level entry point supplies
ample fuel). -/
def parseJsonValue : Nat → List Char → Option (JsValue × List Char)
  | 0, _ => none
  | fuel + 1, cs =>
      match skipJsonWs cs with
      | [] => none
      | c :: rest =>
          if c.toNat = 34 then
            (parseStringBody rest).map (fun p => (.str (String.mk p.1), p.2))
          else if c = "[".head then
            match skipJsonWs rest with
            | d :: rest2 =>
                if d = "]".head then some (.arr [], rest2)
                else
                  (parseArrayElems fuel (skipJsonWs rest)).map
                    (fun p => (.arr p.1, p.2))
            | [] => none
          else if c.toNat = 123 then
            match skipJsonWs rest with
            | d :: rest2 =>
                if d.toNat = 125 then some (.obj [], rest2)
                else
                  (parseObjectMembers fuel (skipJsonWs rest)).map
                    (fun p => (.obj p.1, p.2))
            | [] => none
          else if c = "t".head then
            match rest with
            | r :: u :: e :: rst =>
                if r = "r".head && u = "u".head && e = "e".head then
                  some (.bool true, rst)
                else none
            | _ => none
          else if c = "f".head then
            match rest with
            | a :: l :: s :: e :: rst =>
                if a = "a".head && l = "l".head && s = "s".head &&
                   e = "e".head then some (.bool false, rst)
                else none
            | _ => none
          else if c = "n".head then
            match rest with
            | u :: l :: l2 :: rst =>
                if u = "u".head && l = "l".head && l2 = "l".head then
                  some (.null, rst)
                else none
            | _ => none
          else if c.toNat = 45 || isDigitChar c then
            (parseNumberToken (c :: rest)).map
              (fun p => (.num (String.mk p.1), p.2))
          else none

/-- Parse the non-empty element list of a JSON array, up to and including the
closing bracket. -/
def parseArrayElems : Nat → List Char → Option (List JsValue × List Char)
  | 0, _ => none
  | fuel + 1, cs =>
      match parseJsonValue fuel cs with
      | none => none
      | some (v, rest) =>
          match skipJsonWs rest with
          | d :: rest2 =>
              if d = ",".head then
                (parseArrayElems fuel rest2).map (fun p => (v :: p.1, p.2))
              else if d = "]".head then some ([v], rest2)
              else none
          | [] => none

/-- Parse the non-empty member list of a JSON object, up to and including the
closing brace. -/
def parseObjectMembers :
    Nat → List Char → Option (List (String × JsValue) × List Char)
  | 0, _ => none
  | fuel + 1, cs =>
      match skipJsonWs cs with
      | c :: rest =>
          if c.toNat = 34 then
            match parseStringBody rest with
            | none => none
            | some (key, rest2) =>
                match skipJsonWs rest2 with
                | d :: rest3 =>
                    if d = ":".head then
                      match parseJsonValue fuel rest3 with
                      | none => none
                      | some (v, rest4) =>
                          match skipJsonWs rest4 with
                          | e :: rest5 =>
                              if e = ",".head then
                                (parseObjectMembers fuel rest5).map
                                  (fun p =>
                                    ((String.mk key, v) :: p.1, p.2))
                              else if e.toNat = 125 then
                                some ([(String.mk key, v)], rest5)
                              else none
                          | [] => none
                    else none
                | [] => none
          else none
      | [] => none

end

/-- Model of `JSON.parse` (exception modelled as `none`). -/
def jsonParse (s : String) : Option JsValue :=
  match parseJsonValue (2 * s.data.length + 2) s.data with
  | some (v, rest) => if skipJsonWs rest = [] then some v else none
  | none => none

/-- The JSON escaping performed by `JSON.stringify` on string contents. -/
def escapeJsonChar (c : Char) : List Char :=
  if c.toNat = 34 then [Char.ofNat 92, Char.ofNat 34]
  else if c.toNat = 92 then [Char.ofNat 92, Char.ofNat 92]
  else if c.toNat = 8 then [Char.ofNat 92, Char.ofNat 98]
  else if c.toNat = 9 then [Char.ofNat 92, Char.ofNat 116]
  else if c.toNat = 10 then [Char.ofNat 92, Char.ofNat 110]
  else if c.toNat = 12 then [Char.ofNat 92, Char.ofNat 102]
  else if c.toNat = 13 then [Char.ofNat 92, Char.ofNat 114]
  else if c.toNat < 32 then
    [Char.ofNat 92, Char.ofNat 117, Char.ofNat 48, Char.ofNat 48,
     hexDigitChar (c.toNat / 16), hexDigitChar (c.toNat % 16)]
  else [c]

/-- `JSON.stringify` of a string value. -/
def jsonStrLit (s : String) : String :=
  String.mk (Char.ofNat 34 :: s.data.flatMap escapeJsonChar ++ [Char.ofNat 34])

def joinSep (sep : String) : List String → String
  | [] => ""
  | [x] => x
  | x :: y :: xs => x ++ sep ++ joinSep sep (y :: xs)

mutual

/-- Model of `JSON.stringify` on `JSON.parse`-shaped values.  Number values
re-serialise as their source literal (no claim depends on numeric
normalisation). -/
def jsonStringify : JsValue → String
  | .null => "null"
  | .bool b => if b then "true" else "false"
  | .num raw => raw
  | .str s => jsonStrLit s
  | .arr l => "[" ++ joinSep "," (jsonStringifyList l) ++ "]"
  | .obj l => "\x7b" ++ joinSep "," (jsonStringifyMembers l) ++ "\x7d"

def jsonStringifyList : List JsValue → List String
  | [] => []
  | v :: vs => jsonStringify v :: jsonStringifyList vs

def jsonStringifyMembers : List (String × JsValue) → List String
  | [] => []
  | kv :: rest => (jsonStrLit kv.1 ++ ":" ++ jsonStringify kv.2) ::
      jsonStringifyMembers rest

end

/-- `JSON.stringify` of a JavaScript array that may hold `undefined` entries
(`undefined` serialises as `null` inside an array). -/
def stringifyMixedArray (elems : List (Option JsValue)) : String :=
  "[" ++ joinSep ","
    (elems.map (fun e => match e with
      | none => "null"
      | some v => jsonStringify v)) ++ "]"

/-! ### JavaScript runtime-value helpers (truthiness, member access) -/

/-- Whether a JSON number literal denotes zero (its mantissa digits are all
`0`); the only falsy numeric values reachable from `JSON.parse`. -/
def numIsZeroLiteral (raw : String) : Bool :=
  ((raw.data.takeWhile (fun c => c.toNat ≠ 101 && c.toNat ≠ 69)).filter
    isDigitChar).all (fun c => c.toNat = 48)

/-- JavaScript truthiness of a possibly-`undefined` (`none`) value. -/
def jsTruthy : Option JsValue → Bool
  | none => false
  | some .null => false
  | some (.bool b) => b
  | some (.str s) => s ≠ ""
  | some (.num raw) => !numIsZeroLiteral raw
  | some (.arr _) => true
  | some (.obj _) => true

/-- JavaScript property read `v[k]`: throws `TypeError` on `null`, returns
the last binding of `k` on object literals (later duplicate keys win in
`JSON.parse`), `undefined` (`none`) elsewhere. -/
def jsGetMember (v : JsValue) (k : String) : Except String (Option JsValue) :=
  match v with
  | .null => .error "TypeError"
  | .obj kvs => .ok ((kvs.reverse.find? (fun kv => kv.1 = k)).map (fun kv => kv.2))
  | _ => .ok none

/-! ### The signed-cookie codec (`src/utils/workers-oauth-utils.ts`) -/

def COOKIE_NAME : String := "mcp-approved-clients"

def ONE_YEAR_IN_SECONDS : Nat := 31536000

/-- The inbound HTTP request surface the embedded handlers read:
the `Cookie` header and the two form fields of the approval dialog. -/
structure JsRequest where
  cookieHeader : Option String := none
  formApproved : Option String := none
  formState : Option String := none

def isStrItem : JsValue → Bool
  | .str _ => true
  | _ => false

def strItemsOf (items : List JsValue) : List String :=
  items.filterMap (fun it => match it with | .str s => some s | _ => none)

/-- Model of `getApprovedClientsFromCookie`: parses the signed cookie and
verifies its integrity.  `Except.error` models an uncaught exception
(`atob` on a malformed base64 payload, `importKey` on an empty secret);
`.ok none` is the `null` (absent) result. -/
def getApprovedClientsFromCookie (cookieHeader : Option String)
    (secret : String) : Except String (Option (List String)) :=
  match cookieHeader with
  | none => .ok none
  | some h =>
      if h = "" then .ok none
      else
        let cookies := (jsSplitChar ";".head h).map jsTrim
        match cookies.find? (fun c => jsStartsWith (COOKIE_NAME ++ "=") c) with
        | none => .ok none
        | some targetCookie =>
            let cookieValue :=
              jsSubstringFrom (COOKIE_NAME.length + 1) targetCookie
            match jsSplitChar ".".head cookieValue with
            | [signatureHex, base64Payload] =>
                match atob base64Payload with
                | none => .error "InvalidCharacterError"
                | some payload =>
                    match importKey secret with
                    | .error e => .error e
                    | .ok key =>
                        if verifySignature key signatureHex payload then
                          match jsonParse payload with
                          | none => .ok none
                          | some v =>
                              match v with
                              | .arr items =>
                                  if items.all isStrItem then
                                    .ok (some (strItemsOf items))
                                  else .ok none
                              | _ => .ok none
                        else .ok none
            | _ => .ok none

/-- Model of `clientIdAlreadyApproved`. -/
def clientIdAlreadyApproved (request : JsRequest) (clientId : String)
    (cookieSecret : String) : Except String Bool :=
  if clientId = "" then .ok false
  else
    (getApprovedClientsFromCookie request.cookieHeader cookieSecret).map
      (fun approvedClients =>
        match approvedClients with
        | some l => l.contains clientId
        | none => false)

structure ParsedApprovalResult where
  state : JsValue
  setCookieHeader : String
deriving Repr

/-- The cookie value `${signature}.${btoa(payload)}` built by
`parseRedirectApproval` (lines 376-379 of the source) for a given payload,
assuming `btoa` succeeds. -/
def signedCookieValue (key : List Nat) (payload b64 : String) : String :=
  signData key payload ++ "." ++ b64

/-- The JSON payload `parseRedirectApproval` serialises (lines 370-376 of
the source): the existing approved clients, with `state.oauthReqInfo.clientId`
appended when not already present. -/
def cookiePayload (existing : List String) (clientIdVal : Option JsValue) :
    String :=
  let isMember : Bool :=
    match clientIdVal with
    | some (.str s) => existing.contains s
    | _ => false
  if isMember then
    stringifyMixedArray (existing.map (fun s => some (.str s)))
  else
    stringifyMixedArray (existing.map (fun s => some (.str s)) ++
      [clientIdVal])

/-- Model of `parseRedirectApproval`: parses the form submission from the
approval dialog, re-encodes the approved-client cookie.  `Except.error`
models an uncaught exception (the explicit `throw`, `JSON.parse`, the
`state.oauthReqInfo.clientId` dereference, `importKey`, `btoa`). -/
def parseRedirectApproval (request : JsRequest) (cookieSecret : String) :
    Except String ParsedApprovalResult :=
  if request.formApproved = some "true" then
    match request.formState with
    | none => .error "Approval denied or invalid state"
    | some sd =>
      if sd = "" then .error "Approval denied or invalid state"
      else
        match jsonParse sd with
        | none => .error "SyntaxError"
        | some state =>
            match getApprovedClientsFromCookie request.cookieHeader
                cookieSecret with
            | .error e => .error e
            | .ok dec =>
                let existingApprovedClients := dec.getD []
                match jsGetMember state "oauthReqInfo" with
                | .error e => .error e
                | .ok none => .error "TypeError"
                | .ok (some oauthReqInfo) =>
                    match jsGetMember oauthReqInfo "clientId" with
                    | .error e => .error e
                    | .ok clientIdVal =>
                        let payload :=
                          cookiePayload existingApprovedClients clientIdVal
                        match importKey cookieSecret with
                        | .error e => .error e
                        | .ok key =>
                            match btoa payload with
                            | none => .error "InvalidCharacterError"
                            | some b64 =>
                                .ok
                                  { state := state
                                    setCookieHeader :=
                                      COOKIE_NAME ++ "=" ++
                                      signedCookieValue key payload b64 ++
                                      "; HttpOnly; Secure; SameSite=Lax; Max-Age=" ++
                                      toString ONE_YEAR_IN_SECONDS ++ "; Path=/" }
  else .error "Approval denied or invalid state"

/-! ### The approval dialog (`renderApprovalDialog`) -/

structure ClientInfo where
  name : String

structure ServerInfo where
  name : String
  logo : Option String := none
  description : Option String := none

structure ApprovalDialogOptions where
  client : ClientInfo
  server : ServerInfo
  state : JsValue

/-- An HTTP response as the embedded handlers build them. -/
structure JsResponse where
  status : Nat
  body : String := ""
  location : Option String := none
  setCookieHeader : Option String := none
  contentType : Option String := none
deriving Repr

/-- JavaScript `v || dflt` on strings (the empty string is falsy). -/
def jsOrDefaultStr (v : String) (dflt : String) : String :=
  if v = "" then dflt else v

/-- JavaScript `v || dflt` on an optional string field. -/
def jsOrDefaultOpt (v : Option String) (dflt : String) : String :=
  match v with
  | none => dflt
  | some s => if s = "" then dflt else s

/-- The HTML document built by `renderApprovalDialog` (template literal,
lines 177-332 of the source; `\x7b`/`\x7d` denote literal braces and `\x27`
literal apostrophes). -/
def renderApprovalDialogHtml (options : ApprovalDialogOptions) : String :=
  let clientName := options.client.name
  let serverName := options.server.name
  let logoVal :=
    jsOrDefaultOpt options.server.logo "https://www.notion.so/images/favicon.ico"
  let descVal := jsOrDefaultOpt options.server.description
    "This application will be able to access and modify your data."
  let clientNameVal := jsOrDefaultStr options.client.name "Application"
  let stateJson := jsonStringify options.state
  "\n<!DOCTYPE html>\n<html lang=\"en\">\n<head>\n    <meta charset=\"UTF-8\">\n    <meta name=\"viewport\" content=\"width=device-width, initial-scale=1.0\">\n    <title>Authorize " ++
    clientName ++
    "</title>\n    <style>\n        body \x7b\n            font-family: -apple-system, BlinkMacSystemFont, \x27Segoe UI\x27, Roboto, sans-serif;\n            margin: 0;\n            padding: 20px;\n            background-color: #f5f5f5;\n            display: flex;\n            justify-content: center;\n            align-items: center;\n            min-height: 100vh;\n        \x7d\n        .container \x7b\n            background: white;\n            border-radius: 12px;\n            padding: 32px;\n            max-width: 400px;\n            width: 100%;\n            box-shadow: 0 4px 12px rgba(0, 0, 0, 0.1);\n        \x7d\n        .server-info \x7b\n            text-align: center;\n            margin-bottom: 24px;\n        \x7d\n        .server-logo \x7b\n            width: 64px;\n            height: 64px;\n            border-radius: 12px;\n            margin-bottom: 16px;\n        \x7d\n        .server-name \x7b\n            font-size: 20px;\n            font-weight: 600;\n            margin-bottom: 8px;\n            color: #1a1a1a;\n        \x7d\n        .server-description \x7b\n            color: #666;\n            font-size: 14px;\n            line-height: 1.4;\n        \x7d\n        .client-info \x7b\n            border: 1px solid #e5e5e5;\n            border-radius: 8px;\n            padding: 16px;\n            margin-bottom: 24px;\n        \x7d\n        .client-name \x7b\n            font-weight: 600;\n            margin-bottom: 4px;\n            color: #1a1a1a;\n        \x7d\n        .client-description \x7b\n            color: #666;\n            font-size: 14px;\n        \x7d\n        .permissions \x7b\n            margin-bottom: 24px;\n        \x7d\n        .permissions-title \x7b\n            font-weight: 600;\n            margin-bottom: 12px;\n            color: #1a1a1a;\n        \x7d\n        .permission-item \x7b\n            display: flex;\n            align-items: center;\n            margin-bottom: 8px;\n            color: #666;\n            font-size: 14px;\n        \x7d\n        .permission-icon \x7b\n            width: 16px;\n            height: 16px;\n            margin-right: 8px;\n            color: #22c55e;\n        \x7d\n        .buttons \x7b\n            display: flex;\n            gap: 12px;\n        \x7d\n        .button \x7b\n            flex: 1;\n            padding: 12px 16px;\n            border: none;\n            border-radius: 8px;\n            font-weight: 600;\n            cursor: pointer;\n            font-size: 14px;\n            transition: all 0.2s;\n        \x7d\n        .button-primary \x7b\n            background-color: #2563eb;\n            color: white;\n        \x7d\n        .button-primary:hover \x7b\n            background-color: #1d4ed8;\n        \x7d\n        .button-secondary \x7b\n            background-color: #f3f4f6;\n            color: #374151;\n        \x7d\n        .button-secondary:hover \x7b\n            background-color: #e5e7eb;\n        \x7d\n    </style>\n</head>\n<body>\n    <div class=\"container\">\n        <div class=\"server-info\">\n            <img src=\"" ++
    logoVal ++
    "\" alt=\"" ++
    serverName ++
    " Logo\" class=\"server-logo\">\n            <div class=\"server-name\">" ++
    serverName ++
    "</div>\n            <div class=\"server-description\">" ++
    descVal ++
    "</div>\n        </div>\n        \n        <div class=\"client-info\">\n            <div class=\"client-name\">" ++
    clientNameVal ++
    "</div>\n            <div class=\"client-description\">wants to access your " ++
    serverName ++
    " data</div>\n        </div>\n        \n        <div class=\"permissions\">\n            <div class=\"permissions-title\">This will allow the application to:</div>\n            <div class=\"permission-item\">\n                <svg class=\"permission-icon\" fill=\"currentColor\" viewBox=\"0 0 20 20\">\n                    <path fill-rule=\"evenodd\" d=\"M16.707 5.293a1 1 0 010 1.414l-8 8a1 1 0 01-1.414 0l-4-4a1 1 0 011.414-1.414L8 12.586l7.293-7.293a1 1 0 011.414 0z\" clip-rule=\"evenodd\"></path>\n                </svg>\n                Read and write pages and databases\n            </div>\n            <div class=\"permission-item\">\n                <svg class=\"permission-icon\" fill=\"currentColor\" viewBox=\"0 0 20 20\">\n                    <path fill-rule=\"evenodd\" d=\"M16.707 5.293a1 1 0 010 1.414l-8 8a1 1 0 01-1.414 0l-4-4a1 1 0 011.414-1.414L8 12.586l7.293-7.293a1 1 0 011.414 0z\" clip-rule=\"evenodd\"></path>\n                </svg>\n                Access workspace information\n            </div>\n            <div class=\"permission-item\">\n                <svg class=\"permission-icon\" fill=\"currentColor\" viewBox=\"0 0 20 20\">\n                    <path fill-rule=\"evenodd\" d=\"M16.707 5.293a1 1 0 010 1.414l-8 8a1 1 0 01-1.414 0l-4-4a1 1 0 011.414-1.414L8 12.586l7.293-7.293a1 1 0 011.414 0z\" clip-rule=\"evenodd\"></path>\n                </svg>\n                Search content\n            </div>\n        </div>\n        \n        <form method=\"POST\" class=\"buttons\">\n            <input type=\"hidden\" name=\"state\" value=\x27" ++
    stateJson ++
    "\x27>\n            <button type=\"button\" class=\"button button-secondary\" onclick=\"window.close()\">Cancel</button>\n            <button type=\"submit\" name=\"approved\" value=\"true\" class=\"button button-primary\">Authorize</button>\n        </form>\n    </div>\n</body>\n</html>"

/-- Model of `renderApprovalDialog`. -/
def renderApprovalDialog (request : JsRequest)
    (options : ApprovalDialogOptions) : JsResponse :=
  { status := 200, body := renderApprovalDialogHtml options,
    contentType := some "text/html" }

/-! ### Upstream utilities (`src/utils/upstream-utils.ts`)

The WHATWG `URL` object is modelled by its pre-query part, its decoded
search parameters and its fragment.  Percent-decoding is modelled at the
byte level (each decoded byte becomes one code point); no claim below
depends on multi-byte percent-encoded query text, and the source only ever
passes constant well-formed URLs. -/

structure URLModel where
  base : String
  params : List (String × String)
  fragment : Option String
deriving Repr

def upperHexDigit (n : Nat) : Char :=
  if n < 10 then Char.ofNat (48 + n) else Char.ofNat (55 + n)

def isFormUnreserved (b : Nat) : Bool :=
  (48 ≤ b && b ≤ 57) || (65 ≤ b && b ≤ 90) || (97 ≤ b && b ≤ 122) ||
  b = 42 || b = 45 || b = 46 || b = 95

/-- `application/x-www-form-urlencoded` serialisation of one byte. -/
def formUrlEncodeByte (b : Nat) : List Char :=
  if isFormUnreserved b then [Char.ofNat b]
  else if b = 32 then [Char.ofNat 43]
  else [Char.ofNat 37, upperHexDigit (b / 16), upperHexDigit (b % 16)]

def formUrlEncode (s : String) : String :=
  String.mk ((textEncode s).flatMap formUrlEncodeByte)

/-- `application/x-www-form-urlencoded` decoding (`+` and `%XX`; an invalid
percent escape stays literal). -/
def formUrlDecode : List Char → List Char
  | [] => []
  | c :: h1 :: h2 :: tl =>
      if c.toNat = 43 then Char.ofNat 32 :: formUrlDecode (h1 :: h2 :: tl)
      else if c.toNat = 37 && isHexDigitChar h1 && isHexDigitChar h2 then
        Char.ofNat (hexValue [h1, h2]) :: formUrlDecode tl
      else c :: formUrlDecode (h1 :: h2 :: tl)
  | c :: rest =>
      if c.toNat = 43 then Char.ofNat 32 :: formUrlDecode rest
      else c :: formUrlDecode rest

/-- Split at the first occurrence of a separator character, if any. -/
def splitFirst (sep : Char) (s : String) : String × Option String :=
  go s.data []
where
  go : List Char → List Char → String × Option String
  | [], acc => (String.mk acc.reverse, none)
  | c :: rest, acc =>
      if c = sep then (String.mk acc.reverse, some (String.mk rest))
      else go rest (c :: acc)

def parseQueryParams (q : String) : List (String × String) :=
  ((jsSplitChar "&".head q).filter (fun seg => seg ≠ "")).map (fun seg =>
    let kv := splitFirst "=".head seg
    (String.mk (formUrlDecode kv.1.data),
     String.mk (formUrlDecode (kv.2.getD "").data)))

/-- Model of `new URL(href)` for absolute URLs (no claim depends on WHATWG
path normalisation; the source only parses constant absolute URLs). -/
def parseURLModel (href : String) : Option URLModel :=
  let hashSplit := splitFirst "#".head href
  let querySplit := splitFirst "?".head hashSplit.1
  if strContains querySplit.1 "://" then
    some { base := querySplit.1,
           params := parseQueryParams (querySplit.2.getD ""),
           fragment := hashSplit.2 }
  else none

/-- `URLSearchParams.set`: replace the first binding in place, drop later
duplicates, append when absent. -/
def searchParamsSet (ps : List (String × String)) (k v : String) :
    List (String × String) :=
  if ps.any (fun kv => kv.1 = k) then go ps
  else ps ++ [(k, v)]
where
  go : List (String × String) → List (String × String)
  | [] => []
  | kv :: rest =>
      if kv.1 = k then (k, v) :: rest.filter (fun kv2 => kv2.1 ≠ k)
      else kv :: go rest

/-- `URL.href` re-serialisation. -/
def urlHref (u : URLModel) : String :=
  u.base ++
  (if u.params.isEmpty then ""
   else "?" ++ joinSep "&" (u.params.map (fun kv =>
     formUrlEncode kv.1 ++ "=" ++ formUrlEncode kv.2))) ++
  (match u.fragment with
   | none => ""
   | some f => "#" ++ f)

/-- Model of `getUpstreamAuthorizeUrl`.  `owner = none` models an omitted
argument (the TypeScript default parameter `owner = "user"`); the result is
`none` when the `URL` constructor would throw. -/
def getUpstreamAuthorizeUrl (upstream_url client_id redirect_uri : String)
    (state : Option String) (owner : Option String) : Option String :=
  (parseURLModel upstream_url).map (fun upstream =>
    let ownerVal := owner.getD "user"
    let ps := searchParamsSet upstream.params "client_id" client_id
    let ps := searchParamsSet ps "redirect_uri" redirect_uri
    let ps := searchParamsSet ps "response_type" "code"
    let ps := searchParamsSet ps "owner" ownerVal
    let ps :=
      match state with
      | some s => if s = "" then ps else searchParamsSet ps "state" s
      | none => ps
    urlHref { upstream with params := ps })

structure UpstreamTokenArgs where
  code : Option String
  upstream_url : String
  client_secret : String
  redirect_uri : String
  client_id : String

/-- The oracle for the single `fetch` to the upstream token endpoint:
its `ok` flag and its body as JSON (`none` when `resp.json()` rejects). -/
structure UpstreamResponse where
  ok : Bool
  jsonBody : Option JsValue

/-- Model of `fetchUpstreamAuthToken`: `.inl` is the `[body, null]` success
pair, `.inr` the `[null, errorResponse]` pair; `Except.error` models an
uncaught exception (`btoa` on non-Latin-1 credentials, `resp.json()` on a
non-JSON body, the `body.access_token` read on a JSON `null` body). -/
def fetchUpstreamAuthToken (args : UpstreamTokenArgs)
    (resp : UpstreamResponse) : Except String (Sum JsValue JsResponse) :=
  match args.code with
  | none => .ok (.inr { status := 400, body := "Missing code" })
  | some c =>
      if c = "" then .ok (.inr { status := 400, body := "Missing code" })
      else
        match btoa (args.client_id ++ ":" ++ args.client_secret) with
        | none => .error "InvalidCharacterError"
        | some _credentials =>
            if !resp.ok then
              .ok (.inr { status := 500, body := "Failed to fetch access token" })
            else
              match resp.jsonBody with
              | none => .error "SyntaxError"
              | some body =>
                  match jsGetMember body "access_token" with
                  | .error e => .error e
                  | .ok accessToken =>
                      if jsTruthy accessToken then .ok (.inl body)
                      else .ok (.inr { status := 400, body := "Missing access token" })

/-! ### The OAuth route handlers (`src/auth-handler.ts`) -/

/-- Model of `redirectToNotion`: 302 to the upstream authorize URL carrying
the base64-encoded serialised request as `state`. -/
def redirectToNotion (callbackHref : String) (oauthReqInfo : JsValue)
    (envClientId : String) (setCookieHeader : Option String) :
    Except String JsResponse :=
  match btoa (jsonStringify oauthReqInfo) with
  | none => .error "InvalidCharacterError"
  | some st =>
      match getUpstreamAuthorizeUrl "https://api.notion.com/v1/oauth/authorize"
          envClientId callbackHref (some st) (some "user") with
      | none => .error "TypeError"
      | some loc =>
          .ok { status := 302, location := some loc,
                setCookieHeader := setCookieHeader }

/-- Model of the `POST /authorize` handler. -/
def postAuthorizeHandler (request : JsRequest)
    (cookieSecret envClientId callbackHref : String) :
    Except String JsResponse :=
  match parseRedirectApproval request cookieSecret with
  | .error e => .error e
  | .ok res =>
      match jsGetMember res.state "oauthReqInfo" with
      | .error e => .error e
      | .ok o =>
          if !jsTruthy o then .ok { status := 400, body := "Invalid request" }
          else
            match o with
            | some oauthReqInfo =>
                redirectToNotion callbackHref oauthReqInfo envClientId
                  (some res.setCookieHeader)
            | none => .ok { status := 400, body := "Invalid request" }

/-- Model of the `GET /callback` handler.  `resp` is the upstream token
endpoint's answer, `redirectTo` the URL the external
`completeAuthorization` collaborator hands back. -/
def getCallbackHandler (stateQ codeQ : Option String)
    (envClientId envClientSecret callbackHref : String)
    (resp : UpstreamResponse) (redirectTo : String) :
    Except String JsResponse :=
  match stateQ with
  | none => .ok { status := 400, body := "Missing state" }
  | some st =>
      if st = "" then .ok { status := 400, body := "Missing state" }
      else
        let parsed : Option JsValue :=
          match atob st with
          | none => none
          | some decoded => jsonParse decoded
        match parsed with
        | none => .ok { status := 400, body := "Invalid state parameter" }
        | some oauthReqInfo =>
            match jsGetMember oauthReqInfo "clientId" with
            | .error e => .error e
            | .ok clientId =>
                if !jsTruthy clientId then
                  .ok { status := 400, body := "Invalid state" }
                else
                  match codeQ with
                  | none => .ok { status := 400, body := "Missing code" }
                  | some c =>
                      if c = "" then .ok { status := 400, body := "Missing code" }
                      else
                        match fetchUpstreamAuthToken
                            { code := some c,
                              upstream_url := "https://api.notion.com/v1/oauth/token",
                              client_secret := envClientSecret,
                              redirect_uri := callbackHref,
                              client_id := envClientId } resp with
                        | .error e => .error e
                        | .ok (.inr errResponse) => .ok errResponse
                        | .ok (.inl _body) =>
                            .ok { status := 302, location := some redirectTo }

/-- Whether an embedded computation returned normally (did not throw). -/
def exceptIsOk : Except String ParsedApprovalResult → Bool
  | .ok _ => true
  | .error _ => false

/-! ## Proof layer -/

/-! ### String splitting and trimming lemmas -/

lemma jsSplitChar_go_no_sep (sep : Char) (cs : List Char) (acc : List Char)
    (h : ∀ c ∈ cs, c ≠ sep) :
    jsSplitChar.go sep cs acc = [acc.reverse ++ cs] := by
  induction cs generalizing acc with
  | nil => simp [jsSplitChar.go]
  | cons c rest ih =>
      have hc : c ≠ sep := h c (List.mem_cons_self c rest)
      simp only [jsSplitChar.go, if_neg hc]
      rw [ih _ (fun d hd => h d (List.mem_cons_of_mem c hd))]
      simp

lemma jsSplitChar_no_sep (sep : Char) (s : String)
    (h : ∀ c ∈ s.data, c ≠ sep) : jsSplitChar sep s = [s] := by
  unfold jsSplitChar
  rw [jsSplitChar_go_no_sep sep s.data [] h]
  simp

lemma jsSplitChar_go_pair (sep : Char) (xs ys : List Char) (acc : List Char)
    (hx : ∀ c ∈ xs, c ≠ sep) (hy : ∀ c ∈ ys, c ≠ sep) :
    jsSplitChar.go sep (xs ++ sep :: ys) acc =
      [acc.reverse ++ xs, ys] := by
  induction xs generalizing acc with
  | nil =>
      simp only [List.nil_append, jsSplitChar.go, if_pos rfl]
      rw [jsSplitChar_go_no_sep sep ys [] hy]
      simp
  | cons c rest ih =>
      have hc : c ≠ sep := hx c (List.mem_cons_self c rest)
      simp only [List.cons_append, jsSplitChar.go, if_neg hc]
      rw [show rest.append (sep :: ys) = rest ++ sep :: ys from rfl,
        ih _ (fun d hd => hx d (List.mem_cons_of_mem c hd))]
      simp

lemma jsSplitChar_pair (sep : Char) (xs ys : List Char)
    (hx : ∀ c ∈ xs, c ≠ sep) (hy : ∀ c ∈ ys, c ≠ sep) :
    jsSplitChar sep (String.mk (xs ++ sep :: ys)) =
      [String.mk xs, String.mk ys] := by
  unfold jsSplitChar
  rw [jsSplitChar_go_pair sep xs ys [] hx hy]
  simp

lemma dropWhile_id_of_head (p : Char → Bool) (l : List Char)
    (h : ∀ c ∈ l.take 1, p c = false) : l.dropWhile p = l := by
  cases l with
  | nil => rfl
  | cons c rest =>
      exact List.dropWhile_cons_of_neg (by simp [h c (by simp)])

lemma jsTrim_of_ends (s : String)
    (h1 : ∀ c ∈ s.data.take 1, jsIsWhitespace c = false)
    (h2 : ∀ c ∈ s.data.reverse.take 1, jsIsWhitespace c = false) :
    jsTrim s = s := by
  apply String.ext
  show ((s.data.dropWhile jsIsWhitespace).reverse.dropWhile
    jsIsWhitespace).reverse = s.data
  rw [dropWhile_id_of_head _ _ h1, dropWhile_id_of_head _ _ h2,
    List.reverse_reverse]

lemma jsStartsWith_append (pre rest : String) :
    jsStartsWith pre (String.mk (pre.data ++ rest.data)) = true := by
  simp [jsStartsWith, List.take_left]

lemma jsSubstringFrom_append (pre rest : String) :
    jsSubstringFrom pre.data.length (String.mk (pre.data ++ rest.data)) =
      rest := by
  simp [jsSubstringFrom, List.drop_left]

/-! ### Hex signature lemmas -/

set_option maxRecDepth 40000 in
lemma hexByte_facts : ∀ b : Fin 256,
    parseIntHex (String.mk (byteToHex2 (b : Nat))) = some (Int.ofNat (b : Nat)) ∧
    ∀ c ∈ byteToHex2 (b : Nat), isLineTerminator c = false ∧
      jsIsWhitespace c = false ∧ c.toNat ≠ 59 ∧ c.toNat ≠ 46 := by decide

lemma sha256_mem_lt (msg : List Nat) : ∀ x ∈ sha256 msg, x < 256 := by
  intro x hx
  unfold sha256 at hx
  simp only [List.mem_flatMap] at hx
  obtain ⟨w, -, hw⟩ := hx
  simp only [List.mem_cons, List.not_mem_nil, or_false] at hw
  rcases hw with h | h | h | h <;> subst h <;>
    exact Nat.mod_lt _ (by norm_num)

lemma hmacSha256_mem_lt (key msg : List Nat) :
    ∀ x ∈ hmacSha256 key msg, x < 256 := by
  intro x hx
  unfold hmacSha256 at hx
  exact sha256_mem_lt _ x hx

lemma sha256Compress_length (st block : List Nat) :
    (sha256Compress st block).length = 8 := by
  simp [sha256Compress]

lemma sha256_length (msg : List Nat) : (sha256 msg).length = 32 := by
  unfold sha256
  have hfold : ∀ (blocks : List (List Nat)) (st : List Nat), st.length = 8 →
      (blocks.foldl sha256Compress st).length = 8 := by
    intro blocks
    induction blocks with
    | nil => intro st h; simpa using h
    | cons b rest ih =>
        intro st h
        simp only [List.foldl_cons]
        exact ih _ (sha256Compress_length st b)
  rw [List.length_flatMap]
  rw [List.map_congr_left (fun x _ => by simp : ∀ x ∈ _, _ = 4)]
  simp [List.map_const, hfold _ sha256Init rfl]

lemma hmacSha256_length (key msg : List Nat) :
    (hmacSha256 key msg).length = 32 := by
  unfold hmacSha256
  exact sha256_length _

lemma dotChunks_flat_pairs (bs : List Nat) (h : ∀ b ∈ bs, b < 256) :
    dotChunks (bs.flatMap byteToHex2) = bs.map byteToHex2 := by
  induction bs with
  | nil => rfl
  | cons b rest ih =>
      have hb := h b (by simp)
      have hfacts := (hexByte_facts ⟨b, hb⟩).2
      simp only [Fin.val_mk] at hfacts
      have h1 : isLineTerminator (hexDigitChar (b / 16)) = false :=
        (hfacts _ (by simp [byteToHex2])).1
      have h2 : isLineTerminator (hexDigitChar (b % 16)) = false :=
        (hfacts _ (by simp [byteToHex2])).1
      show dotChunks (byteToHex2 b ++ rest.flatMap byteToHex2) = _
      rw [show byteToHex2 b = [hexDigitChar (b / 16), hexDigitChar (b % 16)]
        from rfl]
      cases hrest : rest.flatMap byteToHex2 with
      | nil =>
          simp only [List.cons_append, List.nil_append, dotChunks, h1, h2]
          have : rest = [] := by
            cases rest with
            | nil => rfl
            | cons r rs => simp [byteToHex2] at hrest
          subst this
          simp [byteToHex2]
      | cons x xs =>
          simp only [List.cons_append, List.nil_append, dotChunks, h1, h2,
            Bool.false_eq_true, if_false]
          simp only [List.append_eq, List.nil_append]
          rw [← hrest, ih (fun d hd => h d (List.mem_cons_of_mem b hd))]
          simp [byteToHex2]

lemma jsMatchChunks_bytesToHex (bs : List Nat) (h : ∀ b ∈ bs, b < 256)
    (hne : bs ≠ []) :
    jsMatchChunks (bytesToHex bs) =
      some (bs.map (fun b => String.mk (byteToHex2 b))) := by
  unfold jsMatchChunks bytesToHex
  rw [show (String.mk (bs.flatMap byteToHex2)).data = bs.flatMap byteToHex2
    from rfl]
  rw [dotChunks_flat_pairs bs h]
  have hE : (bs.map byteToHex2).isEmpty = false := by
    simp [List.isEmpty_iff, List.map_eq_nil_iff, hne]
  simp [hE, List.map_map, Function.comp]

lemma verifySignature_signData (key : List Nat) (data : String) :
    verifySignature key (signData key data) data = true := by
  have hlt := hmacSha256_mem_lt key (textEncode data)
  have hlen := hmacSha256_length key (textEncode data)
  have hne : hmacSha256 key (textEncode data) ≠ [] := by
    intro hnil; rw [hnil] at hlen; simp at hlen
  unfold verifySignature signData
  rw [jsMatchChunks_bytesToHex _ hlt hne]
  simp only [List.map_map]
  have hmap : ∀ b ∈ hmacSha256 key (textEncode data),
      ((fun c => jsToUint8 (parseIntHex c)) ∘
        (fun b => String.mk (byteToHex2 b))) b = b := by
    intro b hb
    have h1 := (hexByte_facts ⟨b, hlt b hb⟩).1
    simp only [Fin.val_mk] at h1
    simp only [Function.comp_apply, h1, jsToUint8]
    have hb2 : b < 256 := hlt b hb
    change (((b : Int)) % 256).toNat = b
    omega
  rw [List.map_congr_left hmap, List.map_id']
  simp

/-! ### Base64 round-trip lemmas -/

lemma b64_facts : ∀ n : Fin 64,
    b64SextetOfChar (b64CharOfSextet (n : Nat)) = some (n : Nat) ∧
    isAsciiWhitespace (b64CharOfSextet (n : Nat)) = false ∧
    jsIsWhitespace (b64CharOfSextet (n : Nat)) = false ∧
    (b64CharOfSextet (n : Nat)).toNat ≠ 61 ∧
    (b64CharOfSextet (n : Nat)).toNat ≠ 59 ∧
    (b64CharOfSextet (n : Nat)).toNat ≠ 46 := by decide

lemma b64Char_all_facts (n : Nat) :
    isAsciiWhitespace (b64CharOfSextet n) = false ∧
    jsIsWhitespace (b64CharOfSextet n) = false ∧
    (b64CharOfSextet n).toNat ≠ 61 ∧
    (b64CharOfSextet n).toNat ≠ 59 ∧
    (b64CharOfSextet n).toNat ≠ 46 := by
  by_cases h : n < 64
  · exact (b64_facts ⟨n, h⟩).2
  · have : b64CharOfSextet n = "A".head := by
      unfold b64CharOfSextet
      exact List.getD_eq_default _ _ (by
        simp only [base64Alphabet]
        norm_num
        omega)
    rw [this]
    decide

lemma b64SextetOfChar_roundtrip (n : Nat) (h : n < 64) :
    b64SextetOfChar (b64CharOfSextet n) = some n :=
  (b64_facts ⟨n, h⟩).1

lemma btoaBytes_mem_facts (bs : List Nat) : ∀ c ∈ btoaBytes bs,
    isAsciiWhitespace c = false ∧ jsIsWhitespace c = false ∧
    c.toNat ≠ 59 ∧ c.toNat ≠ 46 := by
  induction bs using btoaBytes.induct with
  | case1 => intro c hc; simp [btoaBytes] at hc
  | case2 a =>
      intro c hc
      simp only [btoaBytes, List.mem_cons, List.not_mem_nil, or_false] at hc
      rcases hc with h | h | h | h <;> subst h <;>
        first
        | exact ⟨(b64Char_all_facts _).1, (b64Char_all_facts _).2.1,
            (b64Char_all_facts _).2.2.2.1, (b64Char_all_facts _).2.2.2.2⟩
        | decide
  | case3 a b =>
      intro c hc
      simp only [btoaBytes, List.mem_cons, List.not_mem_nil, or_false] at hc
      rcases hc with h | h | h | h <;> subst h <;>
        first
        | exact ⟨(b64Char_all_facts _).1, (b64Char_all_facts _).2.1,
            (b64Char_all_facts _).2.2.2.1, (b64Char_all_facts _).2.2.2.2⟩
        | decide
  | case4 a b d rest ih =>
      intro c hc
      simp only [btoaBytes, List.mem_cons] at hc
      rcases hc with h | h | h | h | h
      · subst h
        exact ⟨(b64Char_all_facts _).1, (b64Char_all_facts _).2.1,
          (b64Char_all_facts _).2.2.2.1, (b64Char_all_facts _).2.2.2.2⟩
      · subst h
        exact ⟨(b64Char_all_facts _).1, (b64Char_all_facts _).2.1,
          (b64Char_all_facts _).2.2.2.1, (b64Char_all_facts _).2.2.2.2⟩
      · subst h
        exact ⟨(b64Char_all_facts _).1, (b64Char_all_facts _).2.1,
          (b64Char_all_facts _).2.2.2.1, (b64Char_all_facts _).2.2.2.2⟩
      · subst h
        exact ⟨(b64Char_all_facts _).1, (b64Char_all_facts _).2.1,
          (b64Char_all_facts _).2.2.2.1, (b64Char_all_facts _).2.2.2.2⟩
      · exact ih c h

lemma btoaBytes_length_mod4 (bs : List Nat) :
    (btoaBytes bs).length % 4 = 0 := by
  induction bs using btoaBytes.induct with
  | case1 => rfl
  | case2 a => simp [btoaBytes]
  | case3 a b => simp [btoaBytes]
  | case4 a b d rest ih =>
      simp only [btoaBytes, List.length_cons]
      omega

lemma btoaBytes_ne_nil (bs : List Nat) (h : bs ≠ []) : btoaBytes bs ≠ [] := by
  induction bs using btoaBytes.induct with
  | case1 => exact absurd rfl h
  | case2 a => simp [btoaBytes]
  | case3 a b => simp [btoaBytes]
  | case4 a b d rest ih => simp [btoaBytes]

lemma stripBase64Padding_append (xs ys : List Char) (h : 2 ≤ ys.length) :
    stripBase64Padding (xs ++ ys) = xs ++ stripBase64Padding ys := by
  obtain ⟨c1, c2, zs, hys⟩ : ∃ c1 c2 zs, ys.reverse = c1 :: c2 :: zs := by
    rcases hr : ys.reverse with _ | ⟨d1, _ | ⟨d2, ws⟩⟩
    · exfalso
      have := congrArg List.length hr
      simp only [List.length_reverse, List.length_nil] at this
      omega
    · exfalso
      have := congrArg List.length hr
      simp only [List.length_reverse, List.length_cons, List.length_nil]
        at this
      omega
    · exact ⟨d1, d2, ws, rfl⟩
  have hxy : (xs ++ ys).reverse = c1 :: c2 :: (zs ++ xs.reverse) := by
    rw [List.reverse_append, hys]
    simp
  unfold stripBase64Padding
  rw [hxy, hys]
  by_cases h1 : c1 = Char.ofNat 61 <;> by_cases h2 : c2 = Char.ofNat 61 <;>
    simp [h1, h2, List.reverse_append]

lemma sextetsOf_cons_of_sextet (n : Nat) (h : n < 64) (rest : List Char) :
    sextetsOf (b64CharOfSextet n :: rest) =
      (sextetsOf rest).map (fun vs => n :: vs) := by
  simp only [sextetsOf, b64SextetOfChar_roundtrip n h]
  cases sextetsOf rest <;> simp

/-- Core of the base64 round trip: decoding the stripped characters of
`btoaBytes` recovers the original bytes. -/
lemma decode_btoaBytes (bs : List Nat) (h : ∀ b ∈ bs, b < 256) :
    (sextetsOf (stripBase64Padding (btoaBytes bs))).map decodeSextets =
      some bs := by
  induction bs using btoaBytes.induct with
  | case1 => rfl
  | case2 a =>
      have ha : a < 256 := h a (by simp)
      show (sextetsOf (stripBase64Padding [b64CharOfSextet (a / 4),
        b64CharOfSextet (a % 4 * 16), Char.ofNat 61, Char.ofNat 61])).map
          decodeSextets = some [a]
      rw [show stripBase64Padding [b64CharOfSextet (a / 4),
        b64CharOfSextet (a % 4 * 16), Char.ofNat 61, Char.ofNat 61] =
          [b64CharOfSextet (a / 4), b64CharOfSextet (a % 4 * 16)] from rfl]
      rw [sextetsOf_cons_of_sextet _ (by omega),
          sextetsOf_cons_of_sextet _ (by omega)]
      simp only [sextetsOf, Option.map_some']
      simp only [decodeSextets]
      have e1 : a / 4 * 4 + a % 4 * 16 / 16 = a := by omega
      rw [e1]
  | case3 a b =>
      have ha : a < 256 := h a (by simp)
      have hb : b < 256 := h b (by simp)
      have hne : ¬ (b64CharOfSextet (b % 16 * 4) = Char.ofNat 61) := by
        intro hc
        exact (b64Char_all_facts (b % 16 * 4)).2.2.1 (by rw [hc]; rfl)
      show (sextetsOf (stripBase64Padding [b64CharOfSextet (a / 4),
        b64CharOfSextet (a % 4 * 16 + b / 16), b64CharOfSextet (b % 16 * 4),
        Char.ofNat 61])).map decodeSextets = some [a, b]
      rw [show stripBase64Padding [b64CharOfSextet (a / 4),
        b64CharOfSextet (a % 4 * 16 + b / 16), b64CharOfSextet (b % 16 * 4),
        Char.ofNat 61] = [b64CharOfSextet (a / 4),
          b64CharOfSextet (a % 4 * 16 + b / 16),
          b64CharOfSextet (b % 16 * 4)] by
        unfold stripBase64Padding
        simp [hne]]
      rw [sextetsOf_cons_of_sextet _ (by omega),
          sextetsOf_cons_of_sextet _ (by omega),
          sextetsOf_cons_of_sextet _ (by omega)]
      simp only [sextetsOf, Option.map_some']
      simp only [decodeSextets]
      have e1 : a / 4 * 4 + (a % 4 * 16 + b / 16) / 16 = a := by omega
      have e2 : (a % 4 * 16 + b / 16) % 16 * 16 + b % 16 * 4 / 4 = b := by
        omega
      rw [e1, e2]
  | case4 a b d rest ih =>
      have ha : a < 256 := h a (by simp)
      have hb : b < 256 := h b (by simp)
      have hd : d < 256 := h d (by simp)
      have hrest : ∀ x ∈ rest, x < 256 := fun x hx => h x (by simp [hx])
      rcases hr : rest with _ | ⟨r, rs⟩
      · subst hr
        have hne : ¬ (b64CharOfSextet (d % 64) = Char.ofNat 61) := by
          intro hc
          exact (b64Char_all_facts (d % 64)).2.2.1 (by rw [hc]; rfl)
        show (sextetsOf (stripBase64Padding [b64CharOfSextet (a / 4),
          b64CharOfSextet (a % 4 * 16 + b / 16),
          b64CharOfSextet (b % 16 * 4 + d / 64),
          b64CharOfSextet (d % 64)])).map decodeSextets = some [a, b, d]
        rw [show stripBase64Padding [b64CharOfSextet (a / 4),
          b64CharOfSextet (a % 4 * 16 + b / 16),
          b64CharOfSextet (b % 16 * 4 + d / 64), b64CharOfSextet (d % 64)] =
            [b64CharOfSextet (a / 4), b64CharOfSextet (a % 4 * 16 + b / 16),
             b64CharOfSextet (b % 16 * 4 + d / 64),
             b64CharOfSextet (d % 64)] by
          unfold stripBase64Padding
          simp [hne]]
        rw [sextetsOf_cons_of_sextet _ (by omega),
            sextetsOf_cons_of_sextet _ (by omega),
            sextetsOf_cons_of_sextet _ (by omega),
            sextetsOf_cons_of_sextet _ (by omega)]
        simp only [sextetsOf, Option.map_some']
        simp only [decodeSextets]
        have e1 : a / 4 * 4 + (a % 4 * 16 + b / 16) / 16 = a := by omega
        have e2 : (a % 4 * 16 + b / 16) % 16 * 16 +
          (b % 16 * 4 + d / 64) / 4 = b := by omega
        have e3 : (b % 16 * 4 + d / 64) % 4 * 64 + d % 64 = d := by omega
        rw [e1, e2, e3]
      · rw [hr] at ih hrest
        have hneNil : btoaBytes (r :: rs) ≠ [] :=
          btoaBytes_ne_nil _ (by simp)
        have hlen : 2 ≤ (btoaBytes (r :: rs)).length := by
          have hmod := btoaBytes_length_mod4 (r :: rs)
          have : 0 < (btoaBytes (r :: rs)).length :=
            List.length_pos.mpr hneNil
          omega
        show (sextetsOf (stripBase64Padding ([b64CharOfSextet (a / 4),
          b64CharOfSextet (a % 4 * 16 + b / 16),
          b64CharOfSextet (b % 16 * 4 + d / 64),
          b64CharOfSextet (d % 64)] ++ btoaBytes (r :: rs)))).map
            decodeSextets = some (a :: b :: d :: (r :: rs))
        rw [stripBase64Padding_append _ _ hlen]
        simp only [List.cons_append, List.nil_append]
        rw [sextetsOf_cons_of_sextet _ (by omega),
            sextetsOf_cons_of_sextet _ (by omega),
            sextetsOf_cons_of_sextet _ (by omega),
            sextetsOf_cons_of_sextet _ (by omega)]
        obtain ⟨ss, hss, hdec⟩ : ∃ ss,
            sextetsOf (stripBase64Padding (btoaBytes (r :: rs))) = some ss ∧
            decodeSextets ss = r :: rs := by
          have hih := ih hrest
          cases hsx : sextetsOf (stripBase64Padding (btoaBytes (r :: rs))) with
          | none => rw [hsx] at hih; simp at hih
          | some ss =>
              rw [hsx] at hih
              simp only [Option.map_some', Option.some.injEq] at hih
              exact ⟨ss, rfl, hih⟩
        rw [hss]
        simp only [Option.map_some']
        simp only [decodeSextets]
        rw [hdec]
        have e1 : a / 4 * 4 + (a % 4 * 16 + b / 16) / 16 = a := by omega
        have e2 : (a % 4 * 16 + b / 16) % 16 * 16 +
          (b % 16 * 4 + d / 64) / 4 = b := by omega
        have e3 : (b % 16 * 4 + d / 64) % 4 * 64 + d % 64 = d := by omega
        rw [e1, e2, e3]

lemma stripBase64Padding_length (cs : List Char) :
    (stripBase64Padding cs).length ≤ cs.length ∧
    cs.length ≤ (stripBase64Padding cs).length + 2 := by
  unfold stripBase64Padding
  rcases hr : cs.reverse with _ | ⟨c1, _ | ⟨c2, zs⟩⟩ <;>
    have hlen := congrArg List.length hr <;>
    simp only [List.length_reverse, List.length_cons, List.length_nil] at hlen
  · simp [hlen]
  · by_cases h1 : c1 = Char.ofNat 61 <;> simp [h1, hlen]
  · by_cases h1 : c1 = Char.ofNat 61 <;> by_cases h2 : c2 = Char.ofNat 61 <;>
      simp [h1, h2] <;> omega

/-- The base64 round trip: `atob` inverts a successful `btoa`. -/
lemma atob_btoa (s b64 : String) (h : btoa s = some b64) :
    atob b64 = some s := by
  unfold btoa at h
  by_cases hall : s.data.all (fun c => c.toNat < 256)
  · rw [if_pos hall, Option.some.injEq] at h
    subst h
    have hbytes : ∀ b ∈ s.data.map Char.toNat, b < 256 := by
      intro b hb
      obtain ⟨c, hc, rfl⟩ := List.mem_map.mp hb
      exact of_decide_eq_true (List.all_eq_true.mp hall c hc)
    unfold atob
    rw [show (String.mk (btoaBytes (s.data.map Char.toNat))).data =
      btoaBytes (s.data.map Char.toNat) from rfl]
    rw [List.filter_eq_self.mpr (fun c hc => by
      simp [(btoaBytes_mem_facts _ c hc).1])]
    simp only []
    rw [if_pos (btoaBytes_length_mod4 _)]
    have hstrip := stripBase64Padding_length (btoaBytes (s.data.map Char.toNat))
    have hmod := btoaBytes_length_mod4 (s.data.map Char.toNat)
    rw [if_neg (by omega)]
    obtain ⟨ss, hss, hdec⟩ : ∃ ss,
        sextetsOf (stripBase64Padding (btoaBytes (s.data.map Char.toNat))) =
          some ss ∧ decodeSextets ss = s.data.map Char.toNat := by
      have hih := decode_btoaBytes _ hbytes
      cases hsx : sextetsOf (stripBase64Padding
          (btoaBytes (s.data.map Char.toNat))) with
      | none => rw [hsx] at hih; simp at hih
      | some ss =>
          rw [hsx] at hih
          simp only [Option.map_some', Option.some.injEq] at hih
          exact ⟨ss, rfl, hih⟩
    rw [hss]
    simp only [Option.map_some', hdec, Option.some.injEq]
    rw [List.map_map]
    apply String.ext
    show List.map (Char.ofNat ∘ Char.toNat) s.data = s.data
    have hid : ∀ c ∈ s.data, (Char.ofNat ∘ Char.toNat) c = id c :=
      fun c _ => by simp [Char.ofNat_toNat]
    rw [List.map_congr_left hid, List.map_id]
  · rw [if_neg hall] at h
    exact absurd h (by simp)

/-! ### JSON round-trip lemmas (arrays of strings) -/

lemma hexDigit16_facts : ∀ n : Fin 16,
    isHexDigitChar (hexDigitChar (n : Nat)) = true ∧
    hexDigitVal (hexDigitChar (n : Nat)) = (n : Nat) := by decide

lemma parseStringBody_escape (c : Char) (tail : List Char) :
    parseStringBody (escapeJsonChar c ++ tail) =
      (parseStringBody tail).map (fun p => (c :: p.1, p.2)) := by
  by_cases hctl : c.toNat < 32
  · obtain ⟨n, hn, rfl⟩ : ∃ n, n < 32 ∧ c = Char.ofNat n :=
      ⟨c.toNat, hctl, (Char.ofNat_toNat c).symm⟩
    interval_cases n <;> rfl
  · by_cases h34 : c.toNat = 34
    · have hc : c = Char.ofNat 34 := by rw [← Char.ofNat_toNat c, h34]
      subst hc
      rfl
    · by_cases h92 : c.toNat = 92
      · have hc : c = Char.ofNat 92 := by rw [← Char.ofNat_toNat c, h92]
        subst hc
        rfl
      · have hesc : escapeJsonChar c = [c] := by
          unfold escapeJsonChar
          rw [if_neg h34, if_neg h92, if_neg (by omega), if_neg (by omega),
            if_neg (by omega), if_neg (by omega), if_neg (by omega),
            if_neg hctl]
        rw [hesc, List.singleton_append]
        simp only [parseStringBody]
        rw [if_neg h34, if_neg h92, if_neg hctl]

lemma parseStringBody_flat (cs : List Char) (tail : List Char) :
    parseStringBody (cs.flatMap escapeJsonChar ++ Char.ofNat 34 :: tail) =
      some (cs, tail) := by
  induction cs with
  | nil => rfl
  | cons c rest ih =>
      rw [show ((c :: rest).flatMap escapeJsonChar ++ Char.ofNat 34 :: tail) =
        escapeJsonChar c ++ (rest.flatMap escapeJsonChar ++
          Char.ofNat 34 :: tail) by simp]
      rw [parseStringBody_escape, ih]
      rfl

lemma jsonStrLit_data (s : String) :
    (jsonStrLit s).data =
      Char.ofNat 34 :: (s.data.flatMap escapeJsonChar ++ [Char.ofNat 34]) :=
  rfl

lemma parseJsonValue_strLit (fuel : Nat) (s : String) (rest : List Char) :
    parseJsonValue (fuel + 1) ((jsonStrLit s).data ++ rest) =
      some (.str s, rest) := by
  show (parseStringBody ((s.data.flatMap escapeJsonChar ++ [Char.ofNat 34]) ++
    rest)).map (fun p => (JsValue.str (String.mk p.1), p.2)) =
      some (.str s, rest)
  rw [show (s.data.flatMap escapeJsonChar ++ [Char.ofNat 34]) ++ rest =
    s.data.flatMap escapeJsonChar ++ Char.ofNat 34 :: rest by simp]
  rw [parseStringBody_flat]
  rfl


lemma joinSep_strLit_length (L : List String) :
    L.length ≤ (joinSep "," (L.map jsonStrLit)).data.length := by
  induction L with
  | nil => simp
  | cons s rest ih =>
      cases rest with
      | nil => simp [joinSep, jsonStrLit_data]
      | cons s1 rest1 =>
          show (s :: s1 :: rest1).length ≤
            (jsonStrLit s ++ "," ++
              joinSep "," ((s1 :: rest1).map jsonStrLit)).data.length
          simp only [String.data_append, List.length_append,
            List.length_cons, jsonStrLit_data, List.map_cons] at ih ⊢
          omega

lemma parseArrayElems_strs (L : List String) :
    ∀ (rest : List Char) (fuel : Nat), L ≠ [] → L.length + 1 ≤ fuel →
    parseArrayElems fuel
      ((joinSep "," (L.map jsonStrLit)).data ++ "]".data ++ rest) =
        some (L.map .str, rest) := by
  induction L with
  | nil => intro rest fuel hne; exact absurd rfl hne
  | cons s rest0 ih =>
      intro rest fuel _ hf
      cases rest0 with
      | nil =>
          have hf2 : 2 ≤ fuel := by simpa using hf
          obtain ⟨f, rfl⟩ : ∃ f, fuel = f + 2 := ⟨fuel - 2, by omega⟩
          have hin : (joinSep "," ([s].map jsonStrLit)).data ++ "]".data ++
              rest = (jsonStrLit s).data ++ ("]".head :: rest) := by
            show (jsonStrLit s).data ++ "]".data ++ rest = _
            rw [List.append_assoc]
            rfl
          rw [hin, parseArrayElems.eq_2, parseJsonValue_strLit]
          rfl
      | cons s1 rest1 =>
          have hf2 : rest1.length + 3 ≤ fuel := by simpa using hf
          obtain ⟨g, rfl⟩ : ∃ g, fuel = g + 2 := ⟨fuel - 2, by omega⟩
          have hin : (joinSep ","
              ((s :: s1 :: rest1).map jsonStrLit)).data ++ "]".data ++ rest =
            (jsonStrLit s).data ++ (",".head ::
              ((joinSep "," ((s1 :: rest1).map jsonStrLit)).data ++
                ("]".data ++ rest))) := by
            show (jsonStrLit s ++ "," ++
              joinSep "," ((s1 :: rest1).map jsonStrLit)).data ++
                "]".data ++ rest = _
            rw [String.data_append, String.data_append,
              List.append_assoc, List.append_assoc, List.append_assoc]
            rfl
          rw [hin, parseArrayElems.eq_2, parseJsonValue_strLit]
          show (parseArrayElems (g + 1)
            ((joinSep "," ((s1 :: rest1).map jsonStrLit)).data ++
              ("]".data ++ rest))).map
                (fun p => (JsValue.str s :: p.1, p.2)) =
              some ((s :: s1 :: rest1).map JsValue.str, rest)
          rw [← List.append_assoc]
          rw [ih rest (g + 1) (by simp) (by
            simp only [List.length_cons] at hf2 ⊢
            omega)]
          rfl

lemma jsonStringifyList_strs (L : List String) :
    jsonStringifyList (L.map .str) = L.map jsonStrLit := by
  induction L with
  | nil => rfl
  | cons s rest ih => simp [jsonStringifyList, jsonStringify, ih]

lemma jsonStringify_strArr (L : List String) :
    jsonStringify (.arr (L.map .str)) =
      "[" ++ joinSep "," (L.map jsonStrLit) ++ "]" := by
  simp [jsonStringify, jsonStringifyList_strs]

lemma stringifyMixedArray_strs (L : List String) :
    stringifyMixedArray (L.map (fun s => some (.str s))) =
      "[" ++ joinSep "," (L.map jsonStrLit) ++ "]" := by
  unfold stringifyMixedArray
  rw [List.map_map]
  rfl

/-- `JSON.parse` inverts `JSON.stringify` on arrays of strings. -/
lemma jsonParse_strArr (L : List String) :
    jsonParse ("[" ++ joinSep "," (L.map jsonStrLit) ++ "]") =
      some (.arr (L.map .str)) := by
  cases L with
  | nil => rfl
  | cons s rest0 =>
      obtain ⟨t, ht⟩ : ∃ t, (joinSep ","
          ((s :: rest0).map jsonStrLit)).data = Char.ofNat 34 :: t := by
        cases rest0 with
        | nil => exact ⟨_, rfl⟩
        | cons s1 rest1 =>
            refine ⟨(s.data.flatMap escapeJsonChar ++ [Char.ofNat 34]) ++
              (",".data ++ (joinSep ","
                ((s1 :: rest1).map jsonStrLit)).data), ?_⟩
            show (jsonStrLit s ++ "," ++
              joinSep "," ((s1 :: rest1).map jsonStrLit)).data = _
            rw [String.data_append, String.data_append, jsonStrLit_data]
            simp
      unfold jsonParse
      have hdata : ("[" ++ joinSep "," ((s :: rest0).map jsonStrLit) ++
          "]").data = "[".head ::
        ((joinSep "," ((s :: rest0).map jsonStrLit)).data ++ "]".data) := by
      
        rw [String.data_append, String.data_append]
        rfl
      rw [hdata]
      obtain ⟨F, hF⟩ : ∃ F, 2 * ("[".head ::
          ((joinSep "," ((s :: rest0).map jsonStrLit)).data ++
            "]".data)).length + 2 = F + 1 := ⟨_, rfl⟩
      have hJ := joinSep_strLit_length (s :: rest0)
      have hbig : ("[".head :: ((joinSep ","
          ((s :: rest0).map jsonStrLit)).data ++ "]".data)).length =
        (joinSep "," ((s :: rest0).map jsonStrLit)).data.length + 2 := by
        simp
      have hfuel : (s :: rest0).length + 1 ≤ F := by omega
      rw [hF]
      rw [show parseJsonValue (F + 1) ("[".head ::
          ((joinSep "," ((s :: rest0).map jsonStrLit)).data ++ "]".data)) =
        (parseArrayElems F (skipJsonWs
          ((joinSep "," ((s :: rest0).map jsonStrLit)).data ++
            "]".data))).map (fun p => (JsValue.arr p.1, p.2)) by
        rw [parseJsonValue.eq_2]
        rw [show skipJsonWs ("[".head ::
            ((joinSep "," ((s :: rest0).map jsonStrLit)).data ++ "]".data)) =
          "[".head :: ((joinSep ","
            ((s :: rest0).map jsonStrLit)).data ++ "]".data) from rfl]
        rw [show ((joinSep "," ((s :: rest0).map jsonStrLit)).data ++
          "]".data) = Char.ofNat 34 :: (t ++ "]".data) by
          rw [ht]; simp]
        rfl]
      rw [show skipJsonWs ((joinSep ","
          ((s :: rest0).map jsonStrLit)).data ++ "]".data) =
        (joinSep "," ((s :: rest0).map jsonStrLit)).data ++ "]".data by
        rw [ht]; rfl]
      rw [show ((joinSep "," ((s :: rest0).map jsonStrLit)).data ++
        "]".data) = ((joinSep "," ((s :: rest0).map jsonStrLit)).data ++
          "]".data ++ ([] : List Char)) by simp]
      rw [parseArrayElems_strs (s :: rest0) [] F (by simp) hfuel]
      rfl

/-! ### Codec completeness and soundness lemmas -/

lemma strItemsOf_map_str (L : List String) :
    strItemsOf (L.map .str) = L := by
  induction L with
  | nil => rfl
  | cons s rest ih => simp [strItemsOf] at ih ⊢; exact ih

lemma all_isStrItem_map (L : List String) :
    (L.map JsValue.str).all isStrItem = true := by
  induction L with
  | nil => rfl
  | cons s rest ih => simp [isStrItem, ih]

/-- Stepping lemma: a cookie header whose parts satisfy all the checks
decodes to the embedded string list. -/
lemma getApprovedClientsFromCookie_complete
    (h t sig b64 payload : String) (items : List JsValue) (secret : String)
    (hne : ¬ h = "")
    (hfind : ((jsSplitChar ";".head h).map jsTrim).find?
      (fun c => jsStartsWith (COOKIE_NAME ++ "=") c) = some t)
    (hsplit : jsSplitChar ".".head
      (jsSubstringFrom (COOKIE_NAME.length + 1) t) = [sig, b64])
    (hatob : atob b64 = some payload)
    (hsec : ¬ secret = "")
    (hver : verifySignature (textEncode secret) sig payload = true)
    (hjson : jsonParse payload = some (.arr items))
    (hall : items.all isStrItem = true) :
    getApprovedClientsFromCookie (some h) secret =
      .ok (some (strItemsOf items)) := by
  simp only [getApprovedClientsFromCookie, importKey, hne, hfind, hsplit,
    hatob, hsec, hver, hjson, hall, if_false, if_true, ite_false, ite_true]

lemma cookiePrefix_chars : ∀ c ∈ (COOKIE_NAME ++ "=").data,
    jsIsWhitespace c = false ∧ c.toNat ≠ 59 := by decide

lemma signData_chars (key : List Nat) (data : String) :
    ∀ c ∈ (signData key data).data,
      jsIsWhitespace c = false ∧ c.toNat ≠ 59 ∧ c.toNat ≠ 46 := by
  intro c hc
  have hlt := hmacSha256_mem_lt key (textEncode data)
  have hc2 : c ∈ (hmacSha256 key (textEncode data)).flatMap byteToHex2 := hc
  rw [List.mem_flatMap] at hc2
  obtain ⟨b, hb, hcb⟩ := hc2
  have hfacts := (hexByte_facts ⟨b, hlt b hb⟩).2
  simp only [Fin.val_mk] at hfacts
  exact ⟨(hfacts c hcb).2.1, (hfacts c hcb).2.2.1, (hfacts c hcb).2.2.2⟩

lemma btoa_chars (s b64 : String) (h : btoa s = some b64) :
    ∀ c ∈ b64.data, jsIsWhitespace c = false ∧ c.toNat ≠ 59 ∧
      c.toNat ≠ 46 := by
  intro c hc
  unfold btoa at h
  by_cases hall : s.data.all (fun c => c.toNat < 256)
  · rw [if_pos hall, Option.some.injEq] at h
    subst h
    have := btoaBytes_mem_facts (s.data.map Char.toNat) c hc
    exact ⟨this.2.1, this.2.2.1, this.2.2.2⟩
  · rw [if_neg hall] at h
    exact absurd h (by simp)

lemma btoa_ne_empty_of_ne (s b64 : String) (hs : s ≠ "")
    (h : btoa s = some b64) : b64.data ≠ [] := by
  unfold btoa at h
  by_cases hall : s.data.all (fun c => c.toNat < 256)
  · rw [if_pos hall, Option.some.injEq] at h
    subst h
    show btoaBytes (s.data.map Char.toNat) ≠ []
    apply btoaBytes_ne_nil
    simp only [ne_eq, List.map_eq_nil_iff]
    intro hnil
    exact hs (String.ext hnil)
  · rw [if_neg hall] at h
    exact absurd h (by simp)

/-- Generalised round trip: any header whose text is the cookie name,
an equals sign, the hex signature of the payload, a dot and the base64
payload decodes to the embedded list. -/
lemma decode_of_encode_gen (L : List String)
    (secret payload sig b64 value header : String)
    (hsec : secret ≠ "")
    (hpay : payload = jsonStringify (.arr (L.map .str)))
    (hb : btoa payload = some b64)
    (hsig : sig = signData (textEncode secret) payload)
    (hvaldata : value.data = sig.data ++ ".".head :: b64.data)
    (hheaderdata : header.data = (COOKIE_NAME ++ "=").data ++ value.data) :
    getApprovedClientsFromCookie (some header) secret = .ok (some L) := by
  have hvchars : ∀ c ∈ value.data,
      jsIsWhitespace c = false ∧ c.toNat ≠ 59 := by
    intro c hc
    rw [hvaldata] at hc
    rcases List.mem_append.mp hc with hc1 | hc2
    · rw [hsig] at hc1
      exact ⟨(signData_chars _ _ c hc1).1, (signData_chars _ _ c hc1).2.1⟩
    · rcases List.mem_cons.mp hc2 with hc3 | hc4
      · subst hc3; exact ⟨by decide, by decide⟩
      · exact ⟨(btoa_chars _ _ hb c hc4).1, (btoa_chars _ _ hb c hc4).2.1⟩
  have hhchars : ∀ c ∈ header.data,
      jsIsWhitespace c = false ∧ c.toNat ≠ 59 := by
    intro c hc
    rw [hheaderdata] at hc
    rcases List.mem_append.mp hc with hc1 | hc2
    · exact cookiePrefix_chars c hc1
    · exact hvchars c hc2
  have hne : ¬ header = "" := by
    intro hcon
    have := congrArg String.data hcon
    rw [hheaderdata] at this
    simp [COOKIE_NAME] at this
  have hsplit1 : jsSplitChar ";".head header = [header] := by
    apply jsSplitChar_no_sep
    intro c hc heq
    exact (hhchars c hc).2 (by rw [heq]; rfl)
  have htrim : jsTrim header = header := by
    apply jsTrim_of_ends
    · intro c hc
      exact (hhchars c (List.mem_of_mem_take hc)).1
    · intro c hc
      have := List.mem_of_mem_take hc
      rw [List.mem_reverse] at this
      exact (hhchars c this).1
  have hstarts : jsStartsWith (COOKIE_NAME ++ "=") header = true := by
    unfold jsStartsWith
    rw [hheaderdata, List.take_left]
    simp
  have hfind : ((jsSplitChar ";".head header).map jsTrim).find?
      (fun c => jsStartsWith (COOKIE_NAME ++ "=") c) = some header := by
    rw [hsplit1]
    simp [htrim, List.find?, hstarts]
  have hsub : jsSubstringFrom (COOKIE_NAME.length + 1) header = value := by
    unfold jsSubstringFrom
    rw [hheaderdata]
    rw [show COOKIE_NAME.length + 1 = (COOKIE_NAME ++ "=").data.length by rfl]
    rw [List.drop_left]
  have hsplit2 : jsSplitChar ".".head
      (jsSubstringFrom (COOKIE_NAME.length + 1) header) = [sig, b64] := by
    rw [hsub]
    have heq : String.mk (sig.data ++ ".".head :: b64.data) = value := by
      apply String.ext
      rw [hvaldata]
    rw [← heq]
    exact jsSplitChar_pair ".".head sig.data b64.data
      (fun c hc heq2 => by
        rw [hsig] at hc
        exact (signData_chars _ _ c hc).2.2 (by rw [heq2]; rfl))
      (fun c hc heq2 =>
        (btoa_chars _ _ hb c hc).2.2 (by rw [heq2]; rfl))
  have hjson2 : jsonParse payload = some (.arr (L.map .str)) := by
    rw [hpay, jsonStringify_strArr]
    exact jsonParse_strArr L
  have hresult := getApprovedClientsFromCookie_complete header header sig b64
    payload (L.map .str) secret hne hfind hsplit2 (atob_btoa _ _ hb) hsec
    (by rw [hsig]; exact verifySignature_signData _ _)
    hjson2 (all_isStrItem_map L)
  rw [hresult, strItemsOf_map_str]

/-- Decoding a header holding exactly the signed cookie value built by
`parseRedirectApproval` from the string list `L` yields `L` (the heart of
the encode/decode round trip). -/
lemma decode_of_encode (L : List String) (secret b64 : String)
    (hsec : secret ≠ "")
    (hb : btoa (jsonStringify (.arr (L.map .str))) = some b64) :
    getApprovedClientsFromCookie
      (some (COOKIE_NAME ++ "=" ++ signedCookieValue (textEncode secret)
        (jsonStringify (.arr (L.map .str))) b64)) secret =
      .ok (some L) := by
  apply decode_of_encode_gen L secret (jsonStringify (.arr (L.map .str)))
    (signData (textEncode secret) (jsonStringify (.arr (L.map .str)))) b64
    (signedCookieValue (textEncode secret)
      (jsonStringify (.arr (L.map .str))) b64) _ hsec rfl hb rfl
  · show (signData (textEncode secret) (jsonStringify
      (.arr (L.map .str))) ++ "." ++ b64).data = _
    rw [String.data_append, String.data_append, List.append_assoc]
    rfl
  · show ((COOKIE_NAME ++ "=") ++ signedCookieValue (textEncode secret)
      (jsonStringify (.arr (L.map .str))) b64).data = _
    rw [String.data_append]

/-- Soundness of the decode: a returned client list certifies every check
(the signature parsed to exactly the HMAC of the payload, and the payload
parsed as a JSON array of strings). -/
lemma getApprovedClientsFromCookie_sound (cookieHeader : Option String)
    (secret : String) (L : List String)
    (hres : getApprovedClientsFromCookie cookieHeader secret =
      .ok (some L)) :
    ∃ h t sig b64 payload chunks items,
      cookieHeader = some h ∧ ¬ h = "" ∧
      ((jsSplitChar ";".head h).map jsTrim).find?
        (fun c => jsStartsWith (COOKIE_NAME ++ "=") c) = some t ∧
      jsSplitChar ".".head
        (jsSubstringFrom (COOKIE_NAME.length + 1) t) = [sig, b64] ∧
      atob b64 = some payload ∧
      ¬ secret = "" ∧
      jsMatchChunks sig = some chunks ∧
      chunks.map (fun c => jsToUint8 (parseIntHex c)) =
        hmacSha256 (textEncode secret) (textEncode payload) ∧
      jsonParse payload = some (.arr items) ∧
      items.all isStrItem = true ∧
      L = strItemsOf items := by
  cases cookieHeader with
  | none => simp [getApprovedClientsFromCookie] at hres
  | some h =>
      unfold getApprovedClientsFromCookie at hres
      simp only [] at hres
      by_cases hne : h = ""
      · rw [if_pos hne] at hres
        simp at hres
      rw [if_neg hne] at hres
      rcases hfind : ((jsSplitChar ";".head h).map jsTrim).find?
          (fun c => jsStartsWith (COOKIE_NAME ++ "=") c) with _ | t
      all_goals rw [hfind] at hres
      · simp at hres
      try simp only [] at hres
      rcases hsplit : jsSplitChar ".".head
          (jsSubstringFrom (COOKIE_NAME.length + 1) t) with _ | ⟨sig, rest⟩
      all_goals rw [hsplit] at hres
      · simp at hres
      rcases rest with _ | ⟨b64, rest2⟩
      · simp at hres
      rcases rest2 with _ | ⟨x, rest3⟩
      swap
      · simp at hres
      try simp only [] at hres
      rcases hatob : atob b64 with _ | payload
      all_goals rw [hatob] at hres
      · simp at hres
      try simp only [] at hres
      rcases hkey : importKey secret with e | key
      all_goals rw [hkey] at hres
      · simp at hres
      try simp only [] at hres
      have hsec : ¬ secret = "" := by
        intro hcon
        rw [hcon] at hkey
        simp [importKey] at hkey
      have hkeyval : key = textEncode secret := by
        unfold importKey at hkey
        rw [if_neg hsec] at hkey
        exact (Except.ok.injEq _ _ ▸ hkey).symm
      by_cases hver : verifySignature key sig payload
      case neg => rw [if_neg hver] at hres; simp at hres
      rw [if_pos hver] at hres
      rcases hjson : jsonParse payload with _ | v
      all_goals rw [hjson] at hres
      · simp at hres
      try simp only [] at hres
      rcases v with _ | _ | _ | _ | items | _ <;> try simp at hres
      by_cases hall : items.all isStrItem
      case neg => rw [if_neg (by simpa using hall)] at hres; simp at hres
      rw [if_pos (by simpa using hall)] at hres
      simp only [Except.ok.injEq, Option.some.injEq] at hres
      unfold verifySignature at hver
      rcases hchunks : jsMatchChunks sig with _ | chunks
      all_goals rw [hchunks] at hver
      · simp at hver
      simp only [] at hver
      have hbytes := of_decide_eq_true hver
      exact ⟨h, t, sig, b64, payload, chunks, items, rfl, hne, hfind,
        hsplit, hatob, hsec, hchunks, by rw [← hkeyval]; exact hbytes,
        hjson, by simpa using hall, hres.symm⟩

/-! ## Claim layer -/

/-! ### C1: fail-closed characterisation of the signed-cookie decode -/

lemma verifySignature_of_chunks (key : List Nat) (sig data : String)
    (chunks : List String)
    (h1 : jsMatchChunks sig = some chunks)
    (h2 : chunks.map (fun c => jsToUint8 (parseIntHex c)) =
      hmacSha256 key (textEncode data)) :
    verifySignature key sig data = true := by
  unfold verifySignature
  rw [h1]
  simp only []
  exact decide_eq_true h2

set_option maxRecDepth 1000000 in
set_option maxHeartbeats 4000000 in
/-- The HMAC-SHA256 tag of the payload `["abc"]` under the key derived from
the secret `test-secret`, evaluated once and for all. -/
lemma hmac_testsecret_abc :
    hmacSha256 (textEncode "test-secret") (textEncode "[\"abc\"]") =
      [214, 168, 14, 164, 186, 164, 105, 69, 129, 140, 201, 251, 39, 156,
       40, 9, 192, 192, 2, 103, 225, 206, 42, 30, 110, 149, 250, 181, 21,
       99, 124, 44] := by rfl

lemma signData_testsecret_abc :
    signData (textEncode "test-secret") "[\"abc\"]" =
      "d6a80ea4baa46945818cc9fb279c2809c0c00267e1ce2a1e6e95fab515637c2c" := by
  unfold signData
  rw [hmac_testsecret_abc]
  rfl

lemma c1_valid_decode :
    getApprovedClientsFromCookie
      (some "mcp-approved-clients=d6a80ea4baa46945818cc9fb279c2809c0c00267e1ce2a1e6e95fab515637c2c.WyJhYmMiXQ==")
      "test-secret" = .ok (some ["abc"]) := by
  have hv : verifySignature (textEncode "test-secret")
      "d6a80ea4baa46945818cc9fb279c2809c0c00267e1ce2a1e6e95fab515637c2c"
      "[\"abc\"]" = true := by
    refine verifySignature_of_chunks _ _ _
      ["d6", "a8", "0e", "a4", "ba", "a4", "69", "45", "81", "8c", "c9",
       "fb", "27", "9c", "28", "09", "c0", "c0", "02", "67", "e1", "ce",
       "2a", "1e", "6e", "95", "fa", "b5", "15", "63", "7c", "2c"] rfl ?_
    rw [show (["d6", "a8", "0e", "a4", "ba", "a4", "69", "45", "81", "8c",
      "c9", "fb", "27", "9c", "28", "09", "c0", "c0", "02", "67", "e1",
      "ce", "2a", "1e", "6e", "95", "fa", "b5", "15", "63", "7c",
      "2c"]).map (fun c => jsToUint8 (parseIntHex c)) =
        [214, 168, 14, 164, 186, 164, 105, 69, 129, 140, 201, 251, 39,
         156, 40, 9, 192, 192, 2, 103, 225, 206, 42, 30, 110, 149, 250,
         181, 21, 99, 124, 44] from rfl]
    rw [hmac_testsecret_abc]
  exact getApprovedClientsFromCookie_complete _ _ _ _ _ [JsValue.str "abc"]
    "test-secret" (by decide) (by rfl) (by rfl) (by rfl) (by decide) hv
    (by rfl) (by rfl)

lemma c1_flip_decode :
    getApprovedClientsFromCookie
      (some "mcp-approved-clients=D6a80ea4baa46945818cc9fb279c2809c0c00267e1ce2a1e6e95fab515637c2c.WyJhYmMiXQ==")
      "test-secret" = .ok (some ["abc"]) := by
  have hv : verifySignature (textEncode "test-secret")
      "D6a80ea4baa46945818cc9fb279c2809c0c00267e1ce2a1e6e95fab515637c2c"
      "[\"abc\"]" = true := by
    refine verifySignature_of_chunks _ _ _
      ["D6", "a8", "0e", "a4", "ba", "a4", "69", "45", "81", "8c", "c9",
       "fb", "27", "9c", "28", "09", "c0", "c0", "02", "67", "e1", "ce",
       "2a", "1e", "6e", "95", "fa", "b5", "15", "63", "7c", "2c"] rfl ?_
    rw [show (["D6", "a8", "0e", "a4", "ba", "a4", "69", "45", "81", "8c",
      "c9", "fb", "27", "9c", "28", "09", "c0", "c0", "02", "67", "e1",
      "ce", "2a", "1e", "6e", "95", "fa", "b5", "15", "63", "7c",
      "2c"]).map (fun c => jsToUint8 (parseIntHex c)) =
        [214, 168, 14, 164, 186, 164, 105, 69, 129, 140, 201, 251, 39,
         156, 40, 9, 192, 192, 2, 103, 225, 206, 42, 30, 110, 149, 250,
         181, 21, 99, 124, 44] from rfl]
    rw [hmac_testsecret_abc]
  exact getApprovedClientsFromCookie_complete _ _ _ _ _ [JsValue.str "abc"]
    "test-secret" (by decide) (by rfl) (by rfl) (by rfl) (by decide) hv
    (by rfl) (by rfl)

/-- Claim C1 (amended): the decode returns a client list exactly when one
cookie of the header carries the cookie name, the value splits into a hex
part and a base64 part, the base64 part decodes, the hex part chunks into
pieces whose lenient `parseInt` byte values equal the HMAC-SHA256 of the
payload under the key derived from the (non-empty) secret, and the payload
parses as a JSON array of strings; the list is then that array. -/
theorem c1_decode_fail_closed_characterization
    (cookieHeader : Option String) (secret : String) (L : List String) :
    getApprovedClientsFromCookie cookieHeader secret = .ok (some L) ↔
    ∃ h t sig b64 payload chunks items,
      cookieHeader = some h ∧ ¬ h = "" ∧
      ((jsSplitChar ";".head h).map jsTrim).find?
        (fun c => jsStartsWith (COOKIE_NAME ++ "=") c) = some t ∧
      jsSplitChar ".".head
        (jsSubstringFrom (COOKIE_NAME.length + 1) t) = [sig, b64] ∧
      atob b64 = some payload ∧
      ¬ secret = "" ∧
      jsMatchChunks sig = some chunks ∧
      chunks.map (fun c => jsToUint8 (parseIntHex c)) =
        hmacSha256 (textEncode secret) (textEncode payload) ∧
      jsonParse payload = some (.arr items) ∧
      items.all isStrItem = true ∧
      L = strItemsOf items := by
  constructor
  · exact getApprovedClientsFromCookie_sound cookieHeader secret L
  · rintro ⟨h, t, sig, b64, payload, chunks, items, rfl, hne, hfind,
      hsplit, hatob, hsec, hchunks, hmap, hjson, hall, rfl⟩
    exact getApprovedClientsFromCookie_complete h t sig b64 payload items
      secret hne hfind hsplit hatob hsec
      (verifySignature_of_chunks _ _ _ chunks hchunks hmap) hjson hall

/-- Claim C1 counterexample: flipping one character of a valid signed cookie
(the first hex digit `d` to `D`) still decodes to the client list, because
`parseInt(byte, 16)` accepts upper-case hex: the claim's universally
quantified single-flip sentence is false. -/
theorem c1_single_flip_counterexample :
    getApprovedClientsFromCookie
      (some "mcp-approved-clients=d6a80ea4baa46945818cc9fb279c2809c0c00267e1ce2a1e6e95fab515637c2c.WyJhYmMiXQ==")
      "test-secret" = .ok (some ["abc"]) ∧
    getApprovedClientsFromCookie
      (some "mcp-approved-clients=D6a80ea4baa46945818cc9fb279c2809c0c00267e1ce2a1e6e95fab515637c2c.WyJhYmMiXQ==")
      "test-secret" = .ok (some ["abc"]) ∧
    "mcp-approved-clients=d6a80ea4baa46945818cc9fb279c2809c0c00267e1ce2a1e6e95fab515637c2c.WyJhYmMiXQ==" ≠
      "mcp-approved-clients=D6a80ea4baa46945818cc9fb279c2809c0c00267e1ce2a1e6e95fab515637c2c.WyJhYmMiXQ==" ∧
    ("mcp-approved-clients=d6a80ea4baa46945818cc9fb279c2809c0c00267e1ce2a1e6e95fab515637c2c.WyJhYmMiXQ==" : String).length =
      ("mcp-approved-clients=D6a80ea4baa46945818cc9fb279c2809c0c00267e1ce2a1e6e95fab515637c2c.WyJhYmMiXQ==" : String).length ∧
    (("mcp-approved-clients=d6a80ea4baa46945818cc9fb279c2809c0c00267e1ce2a1e6e95fab515637c2c.WyJhYmMiXQ==" : String).data.zip
      ("mcp-approved-clients=D6a80ea4baa46945818cc9fb279c2809c0c00267e1ce2a1e6e95fab515637c2c.WyJhYmMiXQ==" : String).data).countP
        (fun p => p.1 != p.2) = 1 :=
  ⟨c1_valid_decode, c1_flip_decode, by decide, by decide, by decide⟩

/-! ### C2: encode/decode round trip -/

/-- Claim C2: for every string list `L` and non-empty secret, decoding a
cookie holding exactly the value `parseRedirectApproval` emits for `L` —
the hex HMAC-SHA256 signature of `JSON(L)`, a dot, and the base64 of
`JSON(L)` — returns `L` itself. -/
theorem c2_signed_cookie_roundtrip (L : List String) (secret b64 : String)
    (hsec : secret ≠ "")
    (hb : btoa (jsonStringify (.arr (L.map .str))) = some b64) :
    getApprovedClientsFromCookie
      (some (COOKIE_NAME ++ "=" ++
        (signData (textEncode secret) (jsonStringify (.arr (L.map .str))) ++
          "." ++ b64))) secret = .ok (some L) :=
  decode_of_encode L secret b64 hsec hb

/-- Claim C2 witness: the round trip at the concrete list `["abc"]` and
secret `test-secret`. -/
theorem c2_roundtrip_witness :
    "test-secret" ≠ "" ∧
    btoa (jsonStringify (.arr (["abc"].map .str))) = some "WyJhYmMiXQ==" ∧
    getApprovedClientsFromCookie
      (some (COOKIE_NAME ++ "=" ++
        (signData (textEncode "test-secret")
          (jsonStringify (.arr (["abc"].map .str))) ++ "." ++
          "WyJhYmMiXQ=="))) "test-secret" = .ok (some ["abc"]) :=
  ⟨by decide, by rfl, c2_signed_cookie_roundtrip ["abc"] "test-secret"
    "WyJhYmMiXQ==" (by decide) (by rfl)⟩

/-! ### C3: the consent gate can throw -/

/-- Claim C3 (code bug): `clientIdAlreadyApproved` is not total — a cookie
whose base64 payload portion is malformed makes `atob` (line 110 of the
source, outside every try/catch) throw `InvalidCharacterError`, which
propagates out of the gate instead of yielding `false`. -/
theorem c3_consent_gate_throws :
    clientIdAlreadyApproved
      { cookieHeader := some "mcp-approved-clients=00.!!!" } "abc" "secret" =
      .error "InvalidCharacterError" := by rfl

/-! ### C7: denial of the approval form -/

/-- Claim C7: whenever the `approved` form field is not the literal string
`true`, or the `state` field is missing (absent or empty, both falsy),
`parseRedirectApproval` throws `Approval denied or invalid state` and
produces no result, hence no Set-Cookie header. -/
theorem c7_denied_or_missing_state_errors (request : JsRequest)
    (secret : String)
    (h : request.formApproved ≠ some "true" ∨ request.formState = none ∨
      request.formState = some "") :
    parseRedirectApproval request secret =
      .error "Approval denied or invalid state" := by
  unfold parseRedirectApproval
  by_cases happ : request.formApproved = some "true"
  · rcases h with h | h | h
    · exact absurd happ h
    · rw [if_pos happ, h]
    · rw [if_pos happ, h]
      try rfl
  · rw [if_neg happ]

/-- Claim C7 witness: a submission with `approved = "false"` errors. -/
theorem c7_denial_witness :
    parseRedirectApproval
      { formApproved := some "false", formState := some "st" } "secret" =
      .error "Approval denied or invalid state" :=
  c7_denied_or_missing_state_errors _ _ (Or.inl (by decide))

/-! ### C5: the approval dialog does not escape interpolated values -/

set_option maxRecDepth 200000 in
/-- Claim C5 (code bug): a client name holding raw HTML markup appears
verbatim in the rendered approval dialog — nothing escapes or neutralises
the third-party-controlled interpolations. -/
theorem c5_raw_client_name_in_dialog :
    strContains
      (renderApprovalDialog {}
        { client := { name := "<script>alert(1)</script>" },
          server := { name := "Example" }, state := .obj [] }).body
      "<script>alert(1)</script>" = true := by decide

/-! ### C6: the upstream token exchange -/

/-- Claim C6 (amended): `fetchUpstreamAuthToken` maps a missing or empty
code to the 400 `Missing code` response, an upstream non-success status to
the 500 `Failed to fetch access token` response, and a JSON body whose
`access_token` member is falsy (absent or present-but-empty) to the 400
`Missing access token` response; a truthy `access_token` returns the parsed
body.  Every error body is one of three fixed generic strings. -/
theorem c6_token_exchange_mapping (args : UpstreamTokenArgs)
    (resp : UpstreamResponse) :
    ((args.code = none ∨ args.code = some "") →
      fetchUpstreamAuthToken args resp =
        .ok (.inr { status := 400, body := "Missing code" })) ∧
    (∀ c creds, args.code = some c → c ≠ "" →
      btoa (args.client_id ++ ":" ++ args.client_secret) = some creds →
      resp.ok = false →
      fetchUpstreamAuthToken args resp =
        .ok (.inr { status := 500,
                    body := "Failed to fetch access token" })) ∧
    (∀ c creds body tk, args.code = some c → c ≠ "" →
      btoa (args.client_id ++ ":" ++ args.client_secret) = some creds →
      resp.ok = true → resp.jsonBody = some body →
      jsGetMember body "access_token" = .ok tk →
      ((jsTruthy tk = true →
        fetchUpstreamAuthToken args resp = .ok (.inl body)) ∧
       (jsTruthy tk = false →
        fetchUpstreamAuthToken args resp =
          .ok (.inr { status := 400, body := "Missing access token" })))) := by
  refine ⟨?_, ?_, ?_⟩
  · rintro (h | h) <;> rw [fetchUpstreamAuthToken, h] <;> rfl
  · intro c creds hc hcne hbtoa hok
    rw [fetchUpstreamAuthToken, hc]
    simp only [if_neg hcne, hbtoa, hok, Bool.not_false, if_true]
  · intro c creds body tk hc hcne hbtoa hok hbody htk
    constructor
    · intro htr
      rw [fetchUpstreamAuthToken, hc]
      simp only [if_neg hcne, hbtoa, hok, Bool.not_true, Bool.false_eq_true,
        if_false, hbody, htk, htr, if_true]
    · intro htr
      rw [fetchUpstreamAuthToken, hc]
      simp only [if_neg hcne, hbtoa, hok, Bool.not_true, Bool.false_eq_true,
        if_false, hbody, htk, htr]

/-- Claim C6 counterexample: an upstream success body whose `access_token`
field is present but empty is mapped to the 400 `Missing access token`
response (the field is not missing), and a JSON `null` success body makes
the function throw a `TypeError` instead of returning an error pair. -/
theorem c6_counterexample :
    fetchUpstreamAuthToken
      { code := some "c",
        upstream_url := "https://api.notion.com/v1/oauth/token",
        client_secret := "s", redirect_uri := "r", client_id := "i" }
      { ok := true, jsonBody := some (.obj [("access_token", .str "")]) } =
      .ok (.inr { status := 400, body := "Missing access token" }) ∧
    fetchUpstreamAuthToken
      { code := some "c",
        upstream_url := "https://api.notion.com/v1/oauth/token",
        client_secret := "s", redirect_uri := "r", client_id := "i" }
      { ok := true, jsonBody := some .null } = .error "TypeError" :=
  ⟨by rfl, by rfl⟩

/-! ### C8: status codes of the callback handler -/

lemma fetchUpstreamAuthToken_inr_500 (args : UpstreamTokenArgs)
    (resp : UpstreamResponse) (r : JsResponse)
    (h : fetchUpstreamAuthToken args resp = .ok (.inr r))
    (h500 : r.status = 500) : r.body = "Failed to fetch access token" := by
  unfold fetchUpstreamAuthToken at h
  rcases hc : args.code with _ | c
  all_goals rw [hc] at h
  · simp only [Except.ok.injEq, Sum.inr.injEq] at h
    subst h
    simp at h500
  · try simp only [] at h
    by_cases hce : c = ""
    · rw [if_pos hce] at h
      simp only [Except.ok.injEq, Sum.inr.injEq] at h
      subst h
      simp at h500
    rw [if_neg hce] at h
    rcases hb : btoa (args.client_id ++ ":" ++ args.client_secret)
      with _ | creds
    all_goals rw [hb] at h
    · simp at h
    try simp only [] at h
    rcases hok : resp.ok
    all_goals rw [hok] at h
    · simp only [Bool.not_false, if_true, Except.ok.injEq,
        Sum.inr.injEq] at h
      subst h
      rfl
    simp only [Bool.not_true, Bool.false_eq_true, if_false] at h
    rcases hj : resp.jsonBody with _ | body
    all_goals rw [hj] at h
    · simp at h
    try simp only [] at h
    rcases hm : jsGetMember body "access_token" with e | tk
    all_goals rw [hm] at h
    · simp at h
    try simp only [] at h
    rcases htr : jsTruthy tk
    all_goals rw [htr] at h
    · simp only [Bool.false_eq_true, if_false, Except.ok.injEq,
        Sum.inr.injEq] at h
      subst h
      simp at h500
    simp at h

/-- Claim C8: the callback responds 400 `Missing state` when the state
query parameter is absent or empty, 400 `Invalid state parameter` when the
state fails to decode (malformed base64 or malformed JSON), 400
`Missing code` when the code parameter is absent or empty, and every
500-status response it can return carries the upstream-exchange body
`Failed to fetch access token`. -/
theorem c8_callback_status_codes (stateQ codeQ : Option String)
    (envClientId envClientSecret callbackHref redirectTo : String)
    (resp : UpstreamResponse) :
    (getCallbackHandler none codeQ envClientId envClientSecret callbackHref
      resp redirectTo = .ok { status := 400, body := "Missing state" }) ∧
    (getCallbackHandler (some "") codeQ envClientId envClientSecret
      callbackHref resp redirectTo =
      .ok { status := 400, body := "Missing state" }) ∧
    (∀ st, st ≠ "" → atob st = none →
      getCallbackHandler (some st) codeQ envClientId envClientSecret
        callbackHref resp redirectTo =
        .ok { status := 400, body := "Invalid state parameter" }) ∧
    (∀ st d, st ≠ "" → atob st = some d → jsonParse d = none →
      getCallbackHandler (some st) codeQ envClientId envClientSecret
        callbackHref resp redirectTo =
        .ok { status := 400, body := "Invalid state parameter" }) ∧
    (∀ st d oauth cid, st ≠ "" → atob st = some d →
      jsonParse d = some oauth → jsGetMember oauth "clientId" = .ok cid →
      jsTruthy cid = true → (codeQ = none ∨ codeQ = some "") →
      getCallbackHandler (some st) codeQ envClientId envClientSecret
        callbackHref resp redirectTo =
        .ok { status := 400, body := "Missing code" }) ∧
    (∀ res, getCallbackHandler stateQ codeQ envClientId envClientSecret
        callbackHref resp redirectTo = .ok res → res.status = 500 →
      res.body = "Failed to fetch access token") := by
  refine ⟨rfl, rfl, ?_, ?_, ?_, ?_⟩
  · intro st hst hatob
    unfold getCallbackHandler
    simp only []
    rw [if_neg hst, hatob]
  · intro st d hst hatob hj
    unfold getCallbackHandler
    simp only []
    rw [if_neg hst, hatob]
    simp only [hj]
  · intro st d oauth cid hst hatob hj hcid htr hcode
    unfold getCallbackHandler
    simp only []
    rw [if_neg hst, hatob]
    simp only [hj, hcid, htr, Bool.not_true, Bool.false_eq_true, if_false]
    rcases hcode with h | h <;> rw [h] <;> rfl
  · intro res hres h500
    unfold getCallbackHandler at hres
    rcases stateQ with _ | st
    · simp only [Except.ok.injEq] at hres
      subst hres
      simp at h500
    try simp only [] at hres
    by_cases hst : st = ""
    · rw [if_pos hst] at hres
      simp only [Except.ok.injEq] at hres
      subst hres
      simp at h500
    rw [if_neg hst] at hres
    rcases hp : (match atob st with
      | none => none
      | some decoded => jsonParse decoded) with _ | oauth
    all_goals rw [hp] at hres
    · simp only [Except.ok.injEq] at hres
      subst hres
      simp at h500
    try simp only [] at hres
    rcases hm : jsGetMember oauth "clientId" with e | cid
    all_goals rw [hm] at hres
    · simp at hres
    try simp only [] at hres
    rcases htr : jsTruthy cid
    all_goals rw [htr] at hres
    · simp only [Bool.not_false, if_true, Except.ok.injEq] at hres
      subst hres
      simp at h500
    simp only [Bool.not_true, Bool.false_eq_true, if_false] at hres
    rcases codeQ with _ | c
    · simp only [Except.ok.injEq] at hres
      subst hres
      simp at h500
    try simp only [] at hres
    by_cases hce : c = ""
    · rw [if_pos hce] at hres
      simp only [Except.ok.injEq] at hres
      subst hres
      simp at h500
    rw [if_neg hce] at hres
    rcases hft : fetchUpstreamAuthToken
        { code := some c,
          upstream_url := "https://api.notion.com/v1/oauth/token",
          client_secret := envClientSecret, redirect_uri := callbackHref,
          client_id := envClientId } resp with e | v
    all_goals rw [hft] at hres
    · simp at hres
    try simp only [] at hres
    rcases v with body | errResponse
    · simp only [Except.ok.injEq] at hres
      subst hres
      simp at h500
    simp only [Except.ok.injEq] at hres
    subst hres
    exact fetchUpstreamAuthToken_inr_500 _ _ _ hft h500

/-! ### C9: query parameters of the upstream authorize URL -/

/-- Claim C9 (amended): on a base URL that parses and carries no query
parameters of its own, `getUpstreamAuthorizeUrl` returns the URL with
exactly `client_id`, `redirect_uri`, `response_type=code` and `owner`
(defaulting to `user`) set, and `state` only when a state value is provided
and non-empty — an empty-string state is falsy and adds no `state`
parameter. -/
theorem c9_authorize_url_params (base cid ruri : String)
    (state owner : Option String) (u : URLModel)
    (hparse : parseURLModel base = some u) (hq : u.params = []) :
    getUpstreamAuthorizeUrl base cid ruri state owner =
      some (urlHref { u with params :=
        (match state with
         | none =>
             [("client_id", cid), ("redirect_uri", ruri),
              ("response_type", "code"), ("owner", owner.getD "user")]
         | some s =>
             if s = "" then
               [("client_id", cid), ("redirect_uri", ruri),
                ("response_type", "code"), ("owner", owner.getD "user")]
             else
               [("client_id", cid), ("redirect_uri", ruri),
                ("response_type", "code"), ("owner", owner.getD "user")] ++
                 [("state", s)]) }) := by
  unfold getUpstreamAuthorizeUrl
  rw [hparse]
  simp only [Option.map_some', hq]
  rw [show searchParamsSet [] "client_id" cid = [("client_id", cid)]
    from rfl]
  rw [show searchParamsSet [("client_id", cid)] "redirect_uri" ruri =
    [("client_id", cid), ("redirect_uri", ruri)] from rfl]
  rw [show searchParamsSet [("client_id", cid), ("redirect_uri", ruri)]
    "response_type" "code" =
    [("client_id", cid), ("redirect_uri", ruri),
     ("response_type", "code")] from rfl]
  rw [show searchParamsSet
    [("client_id", cid), ("redirect_uri", ruri), ("response_type", "code")]
    "owner" (owner.getD "user") =
    [("client_id", cid), ("redirect_uri", ruri), ("response_type", "code"),
     ("owner", owner.getD "user")] from rfl]
  rcases state with _ | s
  · rfl
  simp only []
  by_cases hs : s = ""
  · subst hs
    rfl
  rw [if_neg hs]
  rw [if_neg hs]
  rw [show searchParamsSet
    [("client_id", cid), ("redirect_uri", ruri), ("response_type", "code"),
     ("owner", owner.getD "user")] "state" s =
    [("client_id", cid), ("redirect_uri", ruri), ("response_type", "code"),
     ("owner", owner.getD "user")] ++ [("state", s)] from rfl]

/-- Claim C9 witness: the parameter layout at a concrete call with a
non-empty state. -/
theorem c9_authorize_url_witness :
    parseURLModel "https://api.notion.com/v1/oauth/authorize" =
      some { base := "https://api.notion.com/v1/oauth/authorize",
             params := [], fragment := none } ∧
    getUpstreamAuthorizeUrl "https://api.notion.com/v1/oauth/authorize"
      "cid" "https://ex.com/callback" (some "st") none =
      some "https://api.notion.com/v1/oauth/authorize?client_id=cid&redirect_uri=https%3A%2F%2Fex.com%2Fcallback&response_type=code&owner=user&state=st" :=
  ⟨by rfl, by
    have h := c9_authorize_url_params
      "https://api.notion.com/v1/oauth/authorize" "cid"
      "https://ex.com/callback" (some "st") none
      { base := "https://api.notion.com/v1/oauth/authorize", params := [],
        fragment := none } (by rfl) (by rfl)
    exact h.trans (by rfl)⟩

set_option maxRecDepth 10000 in
/-- Claim C9 counterexample: a state value that is provided but empty adds
no `state` parameter (the source guards with the falsy check `if (state)`),
refuting the claim that the parameter is set whenever a state value is
provided. -/
theorem c9_empty_state_counterexample :
    getUpstreamAuthorizeUrl "https://api.notion.com/v1/oauth/authorize"
      "cid" "https://ex.com/callback" (some "") none =
      some "https://api.notion.com/v1/oauth/authorize?client_id=cid&redirect_uri=https%3A%2F%2Fex.com%2Fcallback&response_type=code&owner=user" ∧
    strContains "https://api.notion.com/v1/oauth/authorize?client_id=cid&redirect_uri=https%3A%2F%2Fex.com%2Fcallback&response_type=code&owner=user"
      "state=" = false :=
  ⟨by rfl, by decide⟩

/-! ### C4 and C10: inversion of a successful `parseRedirectApproval` -/

lemma contains_true_iff_mem (l : List String) (a : String) :
    l.contains a = true ↔ a ∈ l := by simp

/-- The payload built for a string-valued `clientId`. -/
lemma cookiePayload_str (L : List String) (c : String) :
    cookiePayload L (some (.str c)) =
      if L.contains c then jsonStringify (.arr (L.map .str))
      else jsonStringify (.arr ((L ++ [c]).map .str)) := by
  unfold cookiePayload
  simp only []
  by_cases hLc : L.contains c = true
  · simp only [if_pos hLc]
    rw [stringifyMixedArray_strs, jsonStringify_strArr]
  · simp only [if_neg hLc]
    rw [show List.map (fun s => some (JsValue.str s)) L ++
      [some (JsValue.str c)] =
      List.map (fun s => some (JsValue.str s)) (L ++ [c]) by simp]
    rw [stringifyMixedArray_strs, jsonStringify_strArr]

/-- Inversion of a successful `parseRedirectApproval`: every check of the
success path holds and the result's fields are determined. -/
lemma parseRedirectApproval_sound (request : JsRequest) (secret : String)
    (res : ParsedApprovalResult)
    (hok : parseRedirectApproval request secret = .ok res) :
    ∃ sd st oauthInfo clientIdVal dec b64,
      request.formApproved = some "true" ∧
      request.formState = some sd ∧
      ¬ sd = "" ∧
      jsonParse sd = some st ∧
      getApprovedClientsFromCookie request.cookieHeader secret = .ok dec ∧
      jsGetMember st "oauthReqInfo" = .ok (some oauthInfo) ∧
      jsGetMember oauthInfo "clientId" = .ok clientIdVal ∧
      ¬ secret = "" ∧
      btoa (cookiePayload (dec.getD []) clientIdVal) = some b64 ∧
      res.state = st ∧
      res.setCookieHeader =
        COOKIE_NAME ++ "=" ++
          signedCookieValue (textEncode secret)
            (cookiePayload (dec.getD []) clientIdVal) b64 ++
          "; HttpOnly; Secure; SameSite=Lax; Max-Age=" ++
          toString ONE_YEAR_IN_SECONDS ++ "; Path=/" := by
  unfold parseRedirectApproval at hok
  by_cases happ : request.formApproved = some "true"
  case neg => rw [if_neg happ] at hok; simp at hok
  rw [if_pos happ] at hok
  rcases hsd : request.formState with _ | sd
  all_goals rw [hsd] at hok
  · simp at hok
  try simp only [] at hok
  by_cases hsd0 : sd = ""
  · rw [if_pos hsd0] at hok
    simp at hok
  rw [if_neg hsd0] at hok
  rcases hjson : jsonParse sd with _ | st
  all_goals rw [hjson] at hok
  · simp at hok
  try simp only [] at hok
  rcases hdec : getApprovedClientsFromCookie request.cookieHeader secret
    with e | dec
  all_goals rw [hdec] at hok
  · simp at hok
  try simp only [] at hok
  rcases hmem : jsGetMember st "oauthReqInfo" with e | o
  all_goals rw [hmem] at hok
  · simp at hok
  try simp only [] at hok
  rcases o with _ | oau
  · simp at hok
  try simp only [] at hok
  rcases hcid : jsGetMember oau "clientId" with e | cidv
  all_goals rw [hcid] at hok
  · simp at hok
  try simp only [] at hok
  rcases hkey : importKey secret with e | key
  all_goals rw [hkey] at hok
  · simp at hok
  try simp only [] at hok
  have hsec : ¬ secret = "" := by
    intro hcon
    rw [hcon] at hkey
    simp [importKey] at hkey
  have hkeyval : key = textEncode secret := by
    unfold importKey at hkey
    rw [if_neg hsec] at hkey
    exact (Except.ok.inj hkey).symm
  rcases hb : btoa (cookiePayload (dec.getD []) cidv) with _ | b64
  all_goals rw [hb] at hok
  · simp at hok
  try simp only [] at hok
  subst hkeyval
  simp only [Except.ok.injEq] at hok
  subst hok
  exact ⟨sd, st, oau, cidv, dec, b64, happ, rfl, hsd0, hjson, rfl, hmem,
    hcid, hsec, hb, rfl, rfl⟩

/-- Claim C10 (amended): when `parseRedirectApproval` returns without
throwing, the returned state always carries a defined (non-`undefined`,
non-`null`) `oauthReqInfo` member — but that member may still be falsy, so
the POST /authorize falsy check is not unreachable. -/
theorem c10_success_defines_oauthReqInfo (request : JsRequest)
    (secret : String) (res : ParsedApprovalResult)
    (hok : parseRedirectApproval request secret = .ok res) :
    ∃ v, jsGetMember res.state "oauthReqInfo" = .ok (some v) ∧
      v ≠ JsValue.null := by
  obtain ⟨sd, st, oau, cidv, dec, b64, happ, hsd, hsd0, hjson, hdec, hmem,
    hcid, hsec, hb, hstate, hcookie⟩ :=
    parseRedirectApproval_sound request secret res hok
  refine ⟨oau, by rw [hstate]; exact hmem, ?_⟩
  intro hnull
  rw [hnull] at hcid
  simp [jsGetMember] at hcid

/-- Claim C10 witness: the inversion applied at a concrete approved
submission. -/
theorem c10_success_witness :
    ∃ v, jsGetMember
      (ParsedApprovalResult.state
        { state := JsValue.obj [("oauthReqInfo",
            JsValue.obj [("clientId", JsValue.str "abc")])],
          setCookieHeader := COOKIE_NAME ++ "=" ++
            signedCookieValue (textEncode "test-secret")
              (jsonStringify (JsValue.arr (["abc"].map JsValue.str)))
              "WyJhYmMiXQ==" ++
            "; HttpOnly; Secure; SameSite=Lax; Max-Age=" ++
            toString ONE_YEAR_IN_SECONDS ++ "; Path=/" })
      "oauthReqInfo" = .ok (some v) ∧ v ≠ JsValue.null :=
  c10_success_defines_oauthReqInfo
    { formApproved := some "true",
      formState := some "\x7b\"oauthReqInfo\":\x7b\"clientId\":\"abc\"\x7d\x7d" }
    "test-secret"
    { state := JsValue.obj [("oauthReqInfo",
        JsValue.obj [("clientId", JsValue.str "abc")])],
      setCookieHeader := COOKIE_NAME ++ "=" ++
        signedCookieValue (textEncode "test-secret")
          (jsonStringify (JsValue.arr (["abc"].map JsValue.str)))
          "WyJhYmMiXQ==" ++
        "; HttpOnly; Secure; SameSite=Lax; Max-Age=" ++
        toString ONE_YEAR_IN_SECONDS ++ "; Path=/" }
    (by rfl)

/-- Claim C10 counterexample: the state JSON `\x7b"oauthReqInfo":0\x7d` makes
`parseRedirectApproval` succeed (reading `clientId` off a number yields
`undefined`, it does not throw), and the POST /authorize handler then takes
its falsy check and returns the supposedly unreachable 400 response. -/
theorem c10_reachable_invalid_request :
    exceptIsOk (parseRedirectApproval
      { formApproved := some "true",
        formState := some "\x7b\"oauthReqInfo\":0\x7d" } "test-secret") =
      true ∧
    postAuthorizeHandler
      { formApproved := some "true",
        formState := some "\x7b\"oauthReqInfo\":0\x7d" } "test-secret"
      "cid" "https://example.com/callback" =
      .ok { status := 400, body := "Invalid request" } :=
  ⟨by rfl, by rfl⟩

/-- Claim C4 (amended): a successful approval submission whose existing
cookie decodes to `dec` (absent treated as the empty list `L`) and whose
state carries the string `clientId` `c` emits a Set-Cookie encoding exactly
`L` when `c ∈ L` and `L ++ [c]` otherwise; the new cookie decodes back to
that list, no previously approved client is removed, uniqueness is
preserved, and — provided `c` is non-empty — the new cookie makes
`clientIdAlreadyApproved` answer `true`. -/
theorem c4_cookie_update_invariants (request : JsRequest) (secret : String)
    (res : ParsedApprovalResult) (sd : String) (st oau : JsValue)
    (c : String) (dec : Option (List String)) (L L2 : List String)
    (b64 : String)
    (hok : parseRedirectApproval request secret = .ok res)
    (hsd : request.formState = some sd)
    (hjson : jsonParse sd = some st)
    (hoau : jsGetMember st "oauthReqInfo" = .ok (some oau))
    (hcid : jsGetMember oau "clientId" = .ok (some (.str c)))
    (hdec : getApprovedClientsFromCookie request.cookieHeader secret =
      .ok dec)
    (hLdef : L = dec.getD [])
    (hL2def : L2 = if L.contains c then L else L ++ [c])
    (hb64 : btoa (jsonStringify (.arr (L2.map .str))) = some b64) :
    res.setCookieHeader =
      COOKIE_NAME ++ "=" ++
        signedCookieValue (textEncode secret)
          (jsonStringify (.arr (L2.map .str))) b64 ++
        "; HttpOnly; Secure; SameSite=Lax; Max-Age=" ++
        toString ONE_YEAR_IN_SECONDS ++ "; Path=/" ∧
    getApprovedClientsFromCookie
      (some (COOKIE_NAME ++ "=" ++
        signedCookieValue (textEncode secret)
          (jsonStringify (.arr (L2.map .str))) b64)) secret =
      .ok (some L2) ∧
    L ⊆ L2 ∧ (L.Nodup → L2.Nodup) ∧ c ∈ L2 ∧
    (¬ c = "" →
      clientIdAlreadyApproved
        { cookieHeader := some (COOKIE_NAME ++ "=" ++
            signedCookieValue (textEncode secret)
              (jsonStringify (.arr (L2.map .str))) b64) } c secret =
        .ok true) := by
  obtain ⟨sd', st', oau', cidv', dec', b64', happ, hsd', hsd0, hjson',
    hdec', hmem', hcid', hsec, hb', hstate', hcookie'⟩ :=
    parseRedirectApproval_sound request secret res hok
  rw [hsd] at hsd'
  obtain rfl : sd' = sd := (Option.some.inj hsd').symm
  rw [hjson] at hjson'
  obtain rfl : st' = st := (Option.some.inj hjson').symm
  rw [hdec] at hdec'
  obtain rfl : dec' = dec := (Except.ok.inj hdec').symm
  rw [hoau] at hmem'
  obtain rfl : oau' = oau := (Option.some.inj (Except.ok.inj hmem')).symm
  rw [hcid] at hcid'
  obtain rfl : cidv' = some (JsValue.str c) := (Except.ok.inj hcid').symm
  rw [cookiePayload_str] at hb' hcookie'
  rw [← hLdef] at hb' hcookie'
  obtain ⟨hpay, hcmem, hsubset, hnodup⟩ :
      (if L.contains c then jsonStringify (.arr (L.map .str))
       else jsonStringify (.arr ((L ++ [c]).map .str))) =
        jsonStringify (.arr (L2.map .str)) ∧
      c ∈ L2 ∧ L ⊆ L2 ∧ (L.Nodup → L2.Nodup) := by
    by_cases hLc : L.contains c = true
    · have hL2 : L2 = L := by rw [hL2def, if_pos hLc]
      refine ⟨by rw [if_pos hLc, hL2], ?_, ?_, ?_⟩
      · rw [hL2]
        exact (contains_true_iff_mem L c).mp hLc
      · rw [hL2]
        exact fun x hx => hx
      · intro h
        rw [hL2]
        exact h
    · have hL2 : L2 = L ++ [c] := by rw [hL2def, if_neg hLc]
      have hcnot : ¬ c ∈ L := fun hmemc =>
        hLc ((contains_true_iff_mem L c).mpr hmemc)
      refine ⟨by rw [if_neg hLc, hL2], ?_, ?_, ?_⟩
      · rw [hL2]
        exact List.mem_append_right _ (by simp)
      · rw [hL2]
        exact List.subset_append_left L [c]
      · intro h
        rw [hL2]
        exact List.nodup_append.mpr ⟨h, List.nodup_singleton c,
          by simp [List.disjoint_singleton, hcnot]⟩
  rw [hpay] at hb' hcookie'
  rw [hb64] at hb'
  have hbeq : b64' = b64 := (Option.some.inj hb').symm
  rw [hbeq] at hcookie'
  refine ⟨hcookie', decode_of_encode L2 secret b64 hsec hb64, hsubset,
    hnodup, hcmem, ?_⟩
  intro hcne
  unfold clientIdAlreadyApproved
  rw [if_neg hcne]
  simp only []
  rw [decode_of_encode L2 secret b64 hsec hb64]
  simp only [Except.map]
  rw [(contains_true_iff_mem L2 c).mpr hcmem]

/-- Claim C4 witness: the update invariants at a concrete first-time
approval of the client `abc` with no pre-existing cookie. -/
theorem c4_cookie_update_witness :
    (ParsedApprovalResult.setCookieHeader
      { state := JsValue.obj [("oauthReqInfo",
          JsValue.obj [("clientId", JsValue.str "abc")])],
        setCookieHeader := COOKIE_NAME ++ "=" ++
          signedCookieValue (textEncode "test-secret")
            (jsonStringify (.arr (["abc"].map .str))) "WyJhYmMiXQ==" ++
          "; HttpOnly; Secure; SameSite=Lax; Max-Age=" ++
          toString ONE_YEAR_IN_SECONDS ++ "; Path=/" }) =
      COOKIE_NAME ++ "=" ++
        signedCookieValue (textEncode "test-secret")
          (jsonStringify (.arr (["abc"].map .str))) "WyJhYmMiXQ==" ++
        "; HttpOnly; Secure; SameSite=Lax; Max-Age=" ++
        toString ONE_YEAR_IN_SECONDS ++ "; Path=/" ∧
    getApprovedClientsFromCookie
      (some (COOKIE_NAME ++ "=" ++
        signedCookieValue (textEncode "test-secret")
          (jsonStringify (.arr (["abc"].map .str))) "WyJhYmMiXQ=="))
      "test-secret" = .ok (some ["abc"]) ∧
    ([] : List String) ⊆ ["abc"] ∧
    (([] : List String).Nodup → (["abc"] : List String).Nodup) ∧
    "abc" ∈ (["abc"] : List String) ∧
    (¬ "abc" = "" →
      clientIdAlreadyApproved
        { cookieHeader := some (COOKIE_NAME ++ "=" ++
            signedCookieValue (textEncode "test-secret")
              (jsonStringify (.arr (["abc"].map .str))) "WyJhYmMiXQ==") }
        "abc" "test-secret" = .ok true) :=
  c4_cookie_update_invariants
    { formApproved := some "true",
      formState := some "\x7b\"oauthReqInfo\":\x7b\"clientId\":\"abc\"\x7d\x7d" }
    "test-secret"
    { state := JsValue.obj [("oauthReqInfo",
        JsValue.obj [("clientId", JsValue.str "abc")])],
      setCookieHeader := COOKIE_NAME ++ "=" ++
        signedCookieValue (textEncode "test-secret")
          (jsonStringify (.arr (["abc"].map .str))) "WyJhYmMiXQ==" ++
        "; HttpOnly; Secure; SameSite=Lax; Max-Age=" ++
        toString ONE_YEAR_IN_SECONDS ++ "; Path=/" }
    "\x7b\"oauthReqInfo\":\x7b\"clientId\":\"abc\"\x7d\x7d"
    (JsValue.obj [("oauthReqInfo",
      JsValue.obj [("clientId", JsValue.str "abc")])])
    (JsValue.obj [("clientId", JsValue.str "abc")])
    "abc" none [] ["abc"] "WyJhYmMiXQ=="
    (by rfl) rfl (by rfl) (by rfl) (by rfl) (by rfl) (by rfl) (by rfl)
    (by rfl)

/-- Claim C4 counterexample: with the empty string as `clientId` the emitted
cookie encodes the list `[""]` — the client is stored — yet the next
/authorize visit's `clientIdAlreadyApproved` still answers `false`, because
the gate short-circuits on an empty client id: the stored approval can
never take effect, refuting the claim's final sentence. -/
theorem c4_empty_clientid_counterexample :
    parseRedirectApproval
      { formApproved := some "true",
        formState := some "\x7b\"oauthReqInfo\":\x7b\"clientId\":\"\"\x7d\x7d" }
      "test-secret" =
      .ok { state := JsValue.obj [("oauthReqInfo",
              JsValue.obj [("clientId", JsValue.str "")])],
            setCookieHeader := COOKIE_NAME ++ "=" ++
              signedCookieValue (textEncode "test-secret")
                (jsonStringify (.arr ([""].map .str))) "WyIiXQ==" ++
              "; HttpOnly; Secure; SameSite=Lax; Max-Age=" ++
              toString ONE_YEAR_IN_SECONDS ++ "; Path=/" } ∧
    getApprovedClientsFromCookie
      (some (COOKIE_NAME ++ "=" ++
        signedCookieValue (textEncode "test-secret")
          (jsonStringify (.arr ([""].map .str))) "WyIiXQ=="))
      "test-secret" = .ok (some [""]) ∧
    clientIdAlreadyApproved
      { cookieHeader := some (COOKIE_NAME ++ "=" ++
          signedCookieValue (textEncode "test-secret")
            (jsonStringify (.arr ([""].map .str))) "WyIiXQ==") }
      "" "test-secret" = .ok false :=
  ⟨by rfl, decode_of_encode [""] "test-secret" "WyIiXQ==" (by decide)
    (by rfl), by rfl⟩
